import Mathlib

/-!
# spacetraders-inventory: a verification development

A shallow embedding of the Go program `spacetraders-inventory`:

* `web/webrequest.go`  : `WebProxy.get`, the retrying HTTP transport;
* `component/*.go`     : the `User` session and its four operations
  (`GetDetails`, `GetShips`, `GetLeaderboard`, `GetStatus`);
* `web/exporter.go`    : the gauge vectors;
* `main.go`            : the collector loop of `run`.

Go `int`, `int64` and `time.Duration` are 64-bit machine integers: they are
modelled by `Int`, with an explicit wrap where the source does arithmetic on
values that are not constants.  Stateful code is written in state-passing style,
loops that the source leaves unbounded take a `fuel` argument that counts
iterations, and everything that the outside world decides (the outcome of an HTTP
request, the answer of a proxy, the time that elapsed) is an explicit argument.
-/

namespace SpaceTraders

/-! ## Go values shared by the packages -/

/-- The body of an HTTP response, `[]byte`, as `WebProxy.get` sees it. -/
abbrev Bytes := List UInt8

/-- A `*url.Error`, the error type of `http.Get`; `timeout` is what its method
`Timeout()` reports. -/
structure UrlError where
  timeout : Bool
  msg : String
  deriving DecidableEq, Repr

/-- The Go `error` values that the program handles or creates. -/
inductive GoError where
  /-- a `*url.Error` coming out of `http.Get` -/
  | url (e : UrlError)
  /-- the value of `fmt.Errorf(...)`, identified by its text -/
  | errorf (text : String)
  /-- the error of `yaml.Decoder.Decode`, with the messages it collected -/
  | yaml (msgs : List String)
  /-- any other error value (a failed body read, the error of a custom proxy) -/
  | other (msg : String)
  deriving DecidableEq, Repr

/-- Reduce an integer to the range of a Go `int64` (two-complement wrap-around). -/
def wrap64 (x : Int) : Int := (x + 2 ^ 63) % 2 ^ 64 - 2 ^ 63

/-- `time.Millisecond`, in nanoseconds (the unit of `time.Duration`). -/
def timeMillisecond : Int := 1000000

/-- `time.Second`, in nanoseconds. -/
def timeSecond : Int := 1000000000

/-- The time `time.Sleep(d)` pauses for: "a negative or zero duration causes Sleep
to return immediately". -/
def timeSleep (d : Int) : Int := if d ≤ 0 then 0 else d

/-! ## `web/webrequest.go` -/

/-- Constant `maxRetriesTimeout`. -/
def maxRetriesTimeout : Int := 5

/-- Constant `waitTimeout = time.Duration(10)`. -/
def waitTimeout : Int := 10

/-- What one call `http.Get(uri)` gives: a response, together with the result of
`io.ReadAll(response.Body)` on it, or a `*url.Error`. -/
inductive HttpResult where
  | response (body : Bytes) (readErr : Option GoError)
  | failure (err : UrlError)
  deriving DecidableEq, Repr

/-- A run of `WebProxy.get`: what it returned (`none` while it is still looping),
the number of `http.Get` calls it made and the arguments of its `time.Sleep`
calls, in order. -/
structure GetRun where
  result : Option (Bytes × Option GoError)
  attempts : Nat
  sleeps : List Int
  deriving DecidableEq, Repr

/-- The `for count < maxRetriesTimeout` loop of `WebProxy.get`.  `http uri i` is the
outcome of the `i`-th `http.Get(uri)` (counting from 0); `fuel` bounds the number
of iterations that are followed.  The body of the loop never assigns `count`, so
it is passed on unchanged. -/
def getLoop (http : String → Nat → HttpResult) (uri : String) :
    Nat → Int → Nat → List Int → GetRun
  | 0, _, attempts, sleeps => ⟨none, attempts, sleeps⟩
  | fuel + 1, count, attempts, sleeps =>
    if count < maxRetriesTimeout then
      match http uri attempts with
      | .response body readErr => ⟨some (body, readErr), attempts + 1, sleeps⟩
      | .failure errUrl =>
        if errUrl.timeout then
          getLoop http uri fuel count (attempts + 1) (sleeps ++ [waitTimeout * timeSecond])
        else
          ⟨some ([], some (.url errUrl)), attempts + 1, sleeps⟩
    else
      ⟨some ([], some (.errorf "reached unexpected piece of code in get")), attempts, sleeps⟩

/-- `WebProxy.get`: `count := 0`, then the loop. -/
def WebProxy.get (http : String → Nat → HttpResult) (uri : String) (fuel : Nat) : GetRun :=
  getLoop http uri fuel 0 0 []

/-- Constant `httpEndpointGetUserDetails`, up to its `%s`. -/
def httpEndpointGetUserDetails : String := "https://api.spacetraders.io/my/account?token="

/-- Constant `httpEndpointGetShipList`, up to its `%s`. -/
def httpEndpointGetShipList : String := "https://api.spacetraders.io/my/ships?token="

/-- Constant `httpEndpointGetLeaderboard`, up to its `%s`. -/
def httpEndpointGetLeaderboard : String :=
  "https://api.spacetraders.io/game/leaderboard/net-worth?token="

/-- Constant `httpEndpointGetGamestatus`, up to its `%s`. -/
def httpEndpointGetGamestatus : String := "https://api.spacetraders.io/game/status?token="

/-- `WebProxy.GetUserDetails`: `get` on the endpoint with the token filled in. -/
def WebProxy.GetUserDetails (http : String → Nat → HttpResult) (token : String) (fuel : Nat) :
    GetRun :=
  WebProxy.get http (httpEndpointGetUserDetails ++ token) fuel

/-- `WebProxy.GetShipList`. -/
def WebProxy.GetShipList (http : String → Nat → HttpResult) (token : String) (fuel : Nat) :
    GetRun :=
  WebProxy.get http (httpEndpointGetShipList ++ token) fuel

/-- `WebProxy.GetLeaderboard`. -/
def WebProxy.GetLeaderboard (http : String → Nat → HttpResult) (token : String) (fuel : Nat) :
    GetRun :=
  WebProxy.get http (httpEndpointGetLeaderboard ++ token) fuel

/-- `WebProxy.GetGameStatus`. -/
def WebProxy.GetGameStatus (http : String → Nat → HttpResult) (token : String) (fuel : Nat) :
    GetRun :=
  WebProxy.get http (httpEndpointGetGamestatus ++ token) fuel

/-- A server on which every request times out. -/
def alwaysTimeout : String → Nat → HttpResult :=
  fun _ _ => .failure ⟨true, "context deadline exceeded"⟩

/-- A server that times out on the first `n` requests and answers `r` afterwards. -/
def timeoutsThen (n : Nat) (r : HttpResult) : String → Nat → HttpResult :=
  fun _ i => if i < n then .failure ⟨true, "context deadline exceeded"⟩ else r

/-! ## YAML payloads and `yaml.v3` decoding

The session decodes every response body with `yaml.NewDecoder(...).Decode(target)`.
A body is modelled by the document it parses to; decoding into the Go types of
`component/` follows the rules of `yaml.v3` for those types: a mapping fills the
struct fields whose key it holds (the key is the `yaml` tag, or the lower-cased
field name when there is none) and leaves the other fields as they are, keys that
match no field are skipped, a scalar is stored into a `string` field as its text
and into an integer field when it resolves to an integer in range or to a float
(converted with `int64`), a null leaves a
struct, string or integer as it is and clears a pointer, slice or map, and every
mismatch is recorded while decoding continues, `Decode` returning the recorded
messages as its error at the end.  Aliases and merge keys are taken as already
expanded, mapping keys as their text, and messages carry no line numbers. -/

/-- What a plain YAML scalar resolves to. -/
inductive Resolved where
  | null
  | bool (b : Bool)
  | int (i : Int)
  /-- a float `f`, given by what the decoder does with it when the target is an
  integer: `toInt64` holds the value of the conversion `int64(f)` that it stores
  (the conversion drops the fraction of `f`), and is `none` for a float that it
  rejects (one that fails `f <= math.MaxInt64`) -/
  | float (toInt64 : Option Int)
  | str
  deriving DecidableEq, Repr

/-- A YAML node: a scalar with its text, a sequence or a mapping. -/
inductive Yaml where
  | scalar (raw : String) (res : Resolved)
  | seq (items : List Yaml)
  | map (entries : List (String × Yaml))

/-- A response body as the decoder sees it: `malformed` when the parser fails
before anything is decoded (`io.EOF` on an empty body, a syntax error), else the
document's root node. -/
inductive Payload where
  | malformed (err : String)
  | doc (root : Yaml)

/-- A string scalar. -/
def Yaml.str (s : String) : Yaml := .scalar s .str

/-- An integer scalar written in decimal. -/
def Yaml.int (i : Int) : Yaml := .scalar (toString i) (.int i)

/-- The null scalar. -/
def Yaml.null : Yaml := .scalar "null" .null

/-- The short tag of a node, as type errors name it. -/
def Yaml.tag : Yaml → String
  | .scalar _ .null => "!!null"
  | .scalar _ (.bool _) => "!!bool"
  | .scalar _ (.int _) => "!!int"
  | .scalar _ (.float _) => "!!float"
  | .scalar _ .str => "!!str"
  | .seq _ => "!!seq"
  | .map _ => "!!map"

/-- The outcome of unmarshalling one node into a target: the target afterwards,
whether the node was stored (`good`), and the type errors recorded on the way. -/
structure Decoded (α : Type) where
  out : α
  good : Bool
  terrors : List String

/-- The value that a type error quotes after the tag: the text of a scalar, cut
to 7 bytes and `...` when it is longer than 10 (bytes are characters here, as in
an ASCII text), and nothing for a sequence or a mapping. -/
def Yaml.quoted : Yaml → String
  | .scalar raw _ =>
    if raw.utf8ByteSize > 10 then " `" ++ raw.take 7 ++ "...`" else " `" ++ raw ++ "`"
  | _ => ""

/-- The message `d.terror` records when node `n` does not fit a target of type `ty`. -/
def terror (n : Yaml) (ty : String) : String :=
  "cannot unmarshal " ++ n.tag ++ n.quoted ++ " into " ++ ty

/-- The messages of the unique-key check at the head of `d.mapping`: one for each
key that an earlier entry of the mapping already has. -/
def dupKeyErrors : List (String × Yaml) → List String
  | [] => []
  | (k, _) :: rest =>
    ((rest.filter (fun kv => kv.1 == k)).map
      (fun _ => "mapping key \"" ++ k ++ "\" already defined")) ++ dupKeyErrors rest

/-- A node that is no mapping of distinct keys, met where one is needed: a mapping
with a repeated key records the repetitions, any other node a type error.  (Only
called on nodes that are not null.) -/
def notStored {α : Type} (n : Yaml) (ty : String) (out : α) : Decoded α :=
  match n with
  | .map entries =>
    if dupKeyErrors entries = [] then ⟨out, false, [terror n ty]⟩
    else ⟨out, false, dupKeyErrors entries⟩
  | _ => ⟨out, false, [terror n ty]⟩

/-- Unmarshal into a Go `string`. -/
def unmarshalString (n : Yaml) (out : String) : Decoded String :=
  match n with
  | .scalar _ .null => ⟨out, false, []⟩
  | .scalar raw _ => ⟨raw, true, []⟩
  | _ => notStored n "string" out

/-- Whether an integer fits a Go `int64` (and a Go `int`, 64 bits wide here). -/
def inInt64 (i : Int) : Bool := decide (-(2 ^ 63) ≤ i ∧ i < 2 ^ 63)

/-- Unmarshal into a Go `int` or `int64`, `ty` being the name of the type: an
integer is stored when it fits, a float `f` with `f <= math.MaxInt64` is stored as
`int64(f)`, and any other scalar that is not null is a type error. -/
def unmarshalInt (ty : String) (n : Yaml) (out : Int) : Decoded Int :=
  match n with
  | .scalar _ .null => ⟨out, false, []⟩
  | .scalar _ (.int i) => if inInt64 i then ⟨i, true, []⟩ else ⟨out, false, [terror n ty]⟩
  | .scalar _ (.float (some i)) => ⟨wrap64 i, true, []⟩
  | _ => notStored n ty out

/-- Unmarshal into a Go struct (`d.mappingStruct`); `setField key value s` decodes
`value` into the field of `s` that `key` names and returns the errors recorded,
leaving `s` alone when no field has that key. -/
def unmarshalStruct {α : Type} (ty : String) (setField : String → Yaml → α → α × List String)
    (n : Yaml) (out : α) : Decoded α :=
  match n with
  | .scalar _ .null => ⟨out, false, []⟩
  | .map entries =>
    if dupKeyErrors entries = [] then
      let r := entries.foldl
        (fun acc kv => ((setField kv.1 kv.2 acc.1).1, acc.2 ++ (setField kv.1 kv.2 acc.1).2))
        (out, [])
      ⟨r.1, true, r.2⟩
    else ⟨out, false, dupKeyErrors entries⟩
  | _ => ⟨out, false, [terror n ty]⟩

/-- Unmarshal into a Go slice (`d.sequence`): a fresh slice of the elements that
were stored; `elem` unmarshals one node into a zero element. -/
def unmarshalSlice {α : Type} (ty : String) (elem : Yaml → Decoded α)
    (n : Yaml) (out : List α) : Decoded (List α) :=
  match n with
  | .scalar _ .null => ⟨[], true, []⟩
  | .seq items =>
    ⟨((items.map elem).filter (fun d => d.good)).map (fun d => d.out), true,
      ((items.map elem).map (fun d => d.terrors)).flatten⟩
  | _ => notStored n ty out

/-- A Go `map[string]string`, as the list of its entries (the latest first). -/
abbrev StringMap := List (String × String)

/-- Indexing a Go map: the zero value `""` for a key that is absent. -/
def StringMap.index (m : StringMap) (key : String) : String := (m.lookup key).getD ""

/-- Unmarshal into a nil `map[string]string` (`d.mapping`): an entry is stored when
its value is stored as a string or is null (the map is new). -/
def unmarshalStringMap (n : Yaml) : Decoded StringMap :=
  match n with
  | .scalar _ .null => ⟨[], true, []⟩
  | .map entries =>
    if dupKeyErrors entries = [] then
      let r := entries.foldl
        (fun (acc : StringMap × List String) kv =>
          let e := unmarshalString kv.2 ""
          (if e.good || kv.2.tag == "!!null" then (kv.1, e.out) :: acc.1 else acc.1,
            acc.2 ++ e.terrors))
        ([], [])
      ⟨r.1, true, r.2⟩
    else ⟨[], false, dupKeyErrors entries⟩
  | _ => ⟨[], false, [terror n "map[string]string"]⟩

/-- `Decoder.Decode(&target)` for a target that is a struct or a map value:
the target afterwards and the error returned. -/
def decode {α : Type} (unmarshal : Yaml → α → Decoded α) (data : Payload) (target : α) :
    α × Option GoError :=
  match data with
  | .malformed err => (target, some (.yaml [err]))
  | .doc root =>
    let d := unmarshal root target
    (d.out, if d.terrors = [] then none else some (.yaml d.terrors))

/-- Go's `len(s)` for a string: its length in bytes. -/
def len (s : String) : Nat := s.utf8ByteSize

/-! ## `component/generic.go`, `ship.go`, `leaderboard.go` -/

/-- `component.Error`; its fields carry no `yaml` tag, so their keys are
`message` and `code`. -/
structure Error where
  Message : String
  Code : Int
  deriving DecidableEq, Repr

/-- Field table of `component.Error`. -/
def Error.setField (key : String) (v : Yaml) (e : Error) : Error × List String :=
  if key = "message" then
    ({ e with Message := (unmarshalString v e.Message).out }, (unmarshalString v e.Message).terrors)
  else if key = "code" then
    ({ e with Code := (unmarshalInt "int" v e.Code).out }, (unmarshalInt "int" v e.Code).terrors)
  else (e, [])

/-- `component.Ship`. -/
structure Ship where
  Class : String
  FlightPlanId : String
  Id : String
  Location : String
  Manufacturer : String
  MaxCargo : Int
  Plating : Int
  SpaceAvailable : Int
  Speed : Int
  /-- field `Type` of the source (a reserved word here) -/
  Type_ : String
  Weapons : Int
  X : Int
  Y : Int
  deriving DecidableEq, Repr

/-- The zero value of `component.Ship`. -/
def Ship.zero : Ship := ⟨"", "", "", "", "", 0, 0, 0, 0, "", 0, 0, 0⟩

/-- Field table of `component.Ship`. -/
def Ship.setField (key : String) (v : Yaml) (s : Ship) : Ship × List String :=
  if key = "class" then
    ({ s with Class := (unmarshalString v s.Class).out }, (unmarshalString v s.Class).terrors)
  else if key = "flightPlanId" then
    ({ s with FlightPlanId := (unmarshalString v s.FlightPlanId).out },
      (unmarshalString v s.FlightPlanId).terrors)
  else if key = "id" then
    ({ s with Id := (unmarshalString v s.Id).out }, (unmarshalString v s.Id).terrors)
  else if key = "location" then
    ({ s with Location := (unmarshalString v s.Location).out },
      (unmarshalString v s.Location).terrors)
  else if key = "manufacturer" then
    ({ s with Manufacturer := (unmarshalString v s.Manufacturer).out },
      (unmarshalString v s.Manufacturer).terrors)
  else if key = "maxCargo" then
    ({ s with MaxCargo := (unmarshalInt "int" v s.MaxCargo).out },
      (unmarshalInt "int" v s.MaxCargo).terrors)
  else if key = "plating" then
    ({ s with Plating := (unmarshalInt "int" v s.Plating).out },
      (unmarshalInt "int" v s.Plating).terrors)
  else if key = "spaceAvailable" then
    ({ s with SpaceAvailable := (unmarshalInt "int" v s.SpaceAvailable).out },
      (unmarshalInt "int" v s.SpaceAvailable).terrors)
  else if key = "speed" then
    ({ s with Speed := (unmarshalInt "int" v s.Speed).out }, (unmarshalInt "int" v s.Speed).terrors)
  else if key = "type" then
    ({ s with Type_ := (unmarshalString v s.Type_).out }, (unmarshalString v s.Type_).terrors)
  else if key = "weapons" then
    ({ s with Weapons := (unmarshalInt "int" v s.Weapons).out },
      (unmarshalInt "int" v s.Weapons).terrors)
  else if key = "x" then
    ({ s with X := (unmarshalInt "int" v s.X).out }, (unmarshalInt "int" v s.X).terrors)
  else if key = "y" then
    ({ s with Y := (unmarshalInt "int" v s.Y).out }, (unmarshalInt "int" v s.Y).terrors)
  else (s, [])

/-- `component.ShipList`. -/
structure ShipList where
  Ships : List Ship
  deriving DecidableEq, Repr

/-- Field table of `component.ShipList`. -/
def ShipList.setField (key : String) (v : Yaml) (l : ShipList) : ShipList × List String :=
  if key = "ships" then
    ({ l with Ships :=
        (unmarshalSlice "[]component.Ship"
          (fun n => unmarshalStruct "component.Ship" Ship.setField n Ship.zero) v l.Ships).out },
      (unmarshalSlice "[]component.Ship"
          (fun n => unmarshalStruct "component.Ship" Ship.setField n Ship.zero) v l.Ships).terrors)
  else (l, [])

/-- `component.UserRank`. -/
structure UserRank where
  Username : String
  NetWorth : Int
  Rank : Int
  deriving DecidableEq, Repr

/-- Field table of `component.UserRank`. -/
def UserRank.setField (key : String) (v : Yaml) (r : UserRank) : UserRank × List String :=
  if key = "username" then
    ({ r with Username := (unmarshalString v r.Username).out },
      (unmarshalString v r.Username).terrors)
  else if key = "netWorth" then
    ({ r with NetWorth := (unmarshalInt "int64" v r.NetWorth).out },
      (unmarshalInt "int64" v r.NetWorth).terrors)
  else if key = "rank" then
    ({ r with Rank := (unmarshalInt "int64" v r.Rank).out },
      (unmarshalInt "int64" v r.Rank).terrors)
  else (r, [])

/-- `component.Leaderboard`. -/
structure Leaderboard where
  NetWorth : List UserRank
  UserNetWorth : UserRank
  deriving DecidableEq, Repr

/-- Field table of `component.Leaderboard`. -/
def Leaderboard.setField (key : String) (v : Yaml) (b : Leaderboard) :
    Leaderboard × List String :=
  if key = "netWorth" then
    ({ b with NetWorth :=
        (unmarshalSlice "[]component.UserRank"
          (fun n => unmarshalStruct "component.UserRank" UserRank.setField n ⟨"", 0, 0⟩)
          v b.NetWorth).out },
      (unmarshalSlice "[]component.UserRank"
          (fun n => unmarshalStruct "component.UserRank" UserRank.setField n ⟨"", 0, 0⟩)
          v b.NetWorth).terrors)
  else if key = "userNetWorth" then
    ({ b with UserNetWorth :=
        (unmarshalStruct "component.UserRank" UserRank.setField v b.UserNetWorth).out },
      (unmarshalStruct "component.UserRank" UserRank.setField v b.UserNetWorth).terrors)
  else (b, [])

/-! ## `web/request.go`: the `Proxy` interface -/

/-- The four methods of `web.Proxy`. -/
inductive Endpoint where
  | GetUserDetails
  | GetShipList
  | GetLeaderboard
  | GetGameStatus
  deriving DecidableEq, Repr

/-- An implementation of `web.Proxy` together with its state: `respond` gives the
`([]byte, error)` a method returns after the calls made so far, and `calls` lists
the calls made so far, the oldest first. -/
structure Proxy where
  respond : List Endpoint → Endpoint → Payload × Option GoError
  calls : List Endpoint

/-- Calling one method of the proxy: what it returns, and the proxy afterwards. -/
def Proxy.call (p : Proxy) (ep : Endpoint) : (Payload × Option GoError) × Proxy :=
  (p.respond p.calls ep, { p with calls := p.calls ++ [ep] })

/-! ## `component/user.go` -/

/-- `component.UserDetails`. -/
structure UserDetails where
  Credits : Int
  JoinedAt : String
  ShipCount : Int
  StructureCount : Int
  Username : String
  deriving DecidableEq, Repr

/-- Field table of `component.UserDetails`. -/
def UserDetails.setField (key : String) (v : Yaml) (d : UserDetails) :
    UserDetails × List String :=
  if key = "credits" then
    ({ d with Credits := (unmarshalInt "int64" v d.Credits).out },
      (unmarshalInt "int64" v d.Credits).terrors)
  else if key = "joinedAt" then
    ({ d with JoinedAt := (unmarshalString v d.JoinedAt).out },
      (unmarshalString v d.JoinedAt).terrors)
  else if key = "shipCount" then
    ({ d with ShipCount := (unmarshalInt "int64" v d.ShipCount).out },
      (unmarshalInt "int64" v d.ShipCount).terrors)
  else if key = "structureCount" then
    ({ d with StructureCount := (unmarshalInt "int64" v d.StructureCount).out },
      (unmarshalInt "int64" v d.StructureCount).terrors)
  else if key = "username" then
    ({ d with Username := (unmarshalString v d.Username).out },
      (unmarshalString v d.Username).terrors)
  else (d, [])

/-- `component.User`.  The `tracer` field is left out: spans record what happens
and decide nothing. -/
structure User where
  token : String
  webProxy : Proxy
  Details : UserDetails
  Error : SpaceTraders.Error

/-- Field table of `component.User`: `Details` under `user`, `Error` under `error`;
the unexported fields have no key. -/
def User.setField (key : String) (v : Yaml) (u : User) : User × List String :=
  if key = "user" then
    ({ u with Details :=
        (unmarshalStruct "component.UserDetails" UserDetails.setField v u.Details).out },
      (unmarshalStruct "component.UserDetails" UserDetails.setField v u.Details).terrors)
  else if key = "error" then
    ({ u with Error := (unmarshalStruct "component.Error" Error.setField v u.Error).out },
      (unmarshalStruct "component.Error" Error.setField v u.Error).terrors)
  else (u, [])

/-- The user right after a proxy call that returned no transport error: the call
is logged by the proxy and the stored error is reset to the sentinel. -/
def User.afterCall (u : User) (ep : Endpoint) : User :=
  { u with webProxy := (u.webProxy.call ep).2, Error := { u.Error with Code := -1, Message := "" } }

/-- How a Go call ends: it returns, or it panics. -/
inductive Outcome (α : Type) where
  | returned (a : α)
  | panicked (msg : String)
  deriving DecidableEq

/-- What `decoder.Decode(&u)` of `GetDetails` leaves behind, `u` being the receiver,
itself a `*User`: the struct pointed to with the error returned, or, for a null
document, the pointer `u` set to nil (and a nil error). -/
inductive DecodedUser where
  | into (u : User) (err : Option GoError)
  | nilled

/-- `decoder.Decode(&u)` in `GetDetails`. -/
def decodeUser (data : Payload) (u : User) : DecodedUser :=
  match data with
  | .doc (.scalar _ .null) => .nilled
  | _ => .into (decode (unmarshalStruct "component.User" User.setField) data u).1
      (decode (unmarshalStruct "component.User" User.setField) data u).2

/-- The text of `fmt.Errorf("ERROR FROM SERVER (%d): %s", code, message)`. -/
def serverErrorText (code : Int) (message : String) : String :=
  "ERROR FROM SERVER (" ++ toString code ++ "): " ++ message

/-- `User.GetDetails`: the struct the receiver points to afterwards, and the error
returned (or the panic). -/
def User.GetDetails (u : User) : User × Outcome (Option GoError) :=
  let r := u.webProxy.call .GetUserDetails
  let u := { u with webProxy := r.2 }
  match r.1.2 with
  | some err => (u, .returned (some err))
  | none =>
    let u := { u with Error := { u.Error with Code := -1, Message := "" } }
    match decodeUser r.1.1 u with
    | .nilled => (u, .panicked "invalid memory address or nil pointer dereference")
    | .into u (some err) => (u, .returned (some err))
    | .into u none =>
      if len u.Error.Message > 0 then
        (u, .returned (some (.errorf (serverErrorText u.Error.Code u.Error.Message))))
      else (u, .returned none)

/-- `User.GetShips`: the user afterwards, and the `(*ShipList, error)` returned. -/
def User.GetShips (u : User) : User × Option ShipList × Option GoError :=
  let r := u.webProxy.call .GetShipList
  let u := { u with webProxy := r.2 }
  match r.1.2 with
  | some err => (u, none, some err)
  | none =>
    let u := { u with Error := { u.Error with Code := -1, Message := "" } }
    match decode (unmarshalStruct "component.ShipList" ShipList.setField) r.1.1 ⟨[]⟩ with
    | (_, some err) => (u, none, some err)
    | (shipList, none) =>
      if len u.Error.Message > 0 then
        (u, none, some (.errorf (serverErrorText u.Error.Code u.Error.Message)))
      else (u, some shipList, none)

/-- `User.GetLeaderboard`: the user afterwards, and the `(*Leaderboard, error)`
returned. -/
def User.GetLeaderboard (u : User) : User × Option Leaderboard × Option GoError :=
  let r := u.webProxy.call .GetLeaderboard
  let u := { u with webProxy := r.2 }
  match r.1.2 with
  | some err => (u, none, some err)
  | none =>
    let u := { u with Error := { u.Error with Code := -1, Message := "" } }
    match decode (unmarshalStruct "component.Leaderboard" Leaderboard.setField) r.1.1
        ⟨[], ⟨"", 0, 0⟩⟩ with
    | (_, some err) => (u, none, some err)
    | (leaderboard, none) =>
      if len u.Error.Message > 0 then
        (u, none, some (.errorf (serverErrorText u.Error.Code u.Error.Message)))
      else (u, some leaderboard, none)

/-- The status text that `GetStatus` maps to 1. -/
def onlineStatus : String := "spacetraders is currently online and available to play"

/-- `User.GetStatus`: the user afterwards, and the `(int, error)` returned. -/
def User.GetStatus (u : User) : User × Int × Option GoError :=
  let r := u.webProxy.call .GetGameStatus
  let u := { u with webProxy := r.2 }
  match r.1.2 with
  | some err => (u, -1, some err)
  | none =>
    let u := { u with Error := { u.Error with Code := -1, Message := "" } }
    match decode (fun n (_ : StringMap) => unmarshalStringMap n) r.1.1 [] with
    | (_, some err) => (u, -1, some err)
    | (status, none) =>
      if len u.Error.Message > 0 then
        (u, -1, some (.errorf (serverErrorText u.Error.Code u.Error.Message)))
      else if status.index "status" = onlineStatus then (u, 1, none)
      else (u, -1, none)

/-- The composite literal `User{token: token, tracer: tracer, webProxy: proxy}`:
`Details` and `Error` hold their zero values. -/
def freshUser (token : String) (proxy : Proxy) : User :=
  ⟨token, proxy, ⟨0, "", 0, 0, ""⟩, ⟨"", 0⟩⟩

/-- `NewUserCustomProxy(ctx, tracer, proxy, token)`: the proxy afterwards, and the
`(*User, error)` returned (or the panic of the `GetDetails` call). -/
def NewUserCustomProxy (proxy : Proxy) (token : String) :
    Proxy × Outcome (Option User × Option GoError) :=
  match (freshUser token proxy).GetDetails with
  | (user, .panicked msg) => (user.webProxy, .panicked msg)
  | (user, .returned (some err)) => (user.webProxy, .returned (none, some err))
  | (user, .returned none) => (user.webProxy, .returned (some user, none))

/-! ## `web/exporter.go` -/

/-- A `float64` that holds a converted 64-bit integer, `float64(i)`, named by the
integer it is converted from.  The conversion itself is not computed: it is exact
up to 2^53 in magnitude and rounds to the nearest `float64` beyond. -/
inductive Float64 where
  | ofInt (i : Int)
  deriving DecidableEq, Repr

/-- A `*prometheus.GaugeVec` as `promauto.NewGaugeVec` declares it: the fields of
its `GaugeOpts`, and its label names. -/
structure GaugeVec where
  Namespace : String
  Name : String
  Help : String
  labelNames : List String
  deriving DecidableEq, Repr

/-- Constant `namespace` of `web/exporter.go`. -/
def exporterNamespace : String := "spacetraderinventory"

/-- Gauge `web.Credits`. -/
def Credits : GaugeVec :=
  ⟨exporterNamespace, "credits", "How much credits user has", ["username"]⟩

/-- Gauge `web.GameStatus`. -/
def GameStatus : GaugeVec :=
  ⟨exporterNamespace, "game_status", "Indicates if the game is up, running and available",
    ["username"]⟩

/-- Gauge `web.ShipCount`. -/
def ShipCount : GaugeVec :=
  ⟨exporterNamespace, "shipcount", "Total of ships user has", ["username"]⟩

/-- Gauge `web.StructureCount`. -/
def StructureCount : GaugeVec :=
  ⟨exporterNamespace, "structurecount", "Total of structure user has", ["username"]⟩

/-- Gauge `web.ShipLoad`. -/
def ShipLoad : GaugeVec :=
  ⟨exporterNamespace, "shipload", "Unused space in ship cargo",
    ["username", "id", "class", "manufacturer", "type", "maxcargo", "plating", "speed",
      "weapons"]⟩

/-- Gauge `web.UserRank`. -/
def UserRank.gauge : GaugeVec :=
  ⟨exporterNamespace, "userrank", "User rank in leaderboard", ["username"]⟩

/-- One observation of a gauge: the name of the gauge, its labels (each declared
label name with the value given to it) and the value set. -/
structure Observation where
  name : String
  labels : List (String × String)
  value : Float64
  deriving DecidableEq, Repr

/-- `g.WithLabelValues(lvs...).Set(v)`: the values are matched to the declared
label names by position.  (Every call site passes as many values as the gauge has
label names.) -/
def GaugeVec.set (g : GaugeVec) (lvs : List String) (v : Float64) : Observation :=
  ⟨g.Name, g.labelNames.zip lvs, v⟩

/-- `fmt.Sprintf("%d", i)`. -/
def sprintfD (i : Int) : String := toString i

/-! ## `main.go` -/

/-- Constant `collectionFrequency`, in milliseconds. -/
def collectionFrequency : Int := 300000

/-- The four fetch operations of the session. -/
inductive Fetch where
  | GetStatus
  | GetDetails
  | GetLeaderboard
  | GetShips
  deriving DecidableEq, Repr

/-- What the collector does, as seen from outside. -/
inductive Event where
  /-- a fetch operation was called and returned this error (`none` for nil) -/
  | fetched (op : Fetch) (err : Option GoError)
  /-- a fetch operation was called and panicked: the process dies -/
  | panicked (op : Fetch) (msg : String)
  /-- `run` itself panicked (it dereferenced a nil result): the process dies -/
  | panic (msg : String)
  /-- a gauge was set -/
  | published (o : Observation)
  /-- `log.Fatal(err)`: the error is logged and the process exits -/
  | fatal (err : GoError)
  /-- `time.Sleep(d)` was called, `d` in nanoseconds -/
  | sleep (d : Int)
  deriving DecidableEq, Repr

/-- The argument of the `time.Sleep` that ends a cycle,
`time.Duration(collectionFrequency-wait) * time.Millisecond` with
`wait := time.Since(startTime).Milliseconds()`, for a cycle that took `elapsed`
nanoseconds. -/
def sleepArg (elapsed : Int) : Int :=
  wrap64 (wrap64 (collectionFrequency - elapsed.tdiv 1000000) * timeMillisecond)

/-- The `shipload` observation of one ship. -/
def publishShip (username : String) (ship : Ship) : Event :=
  .published (ShipLoad.set
    [username, ship.Id, ship.Class, ship.Manufacturer, ship.Type_, sprintfD ship.MaxCargo,
      sprintfD ship.Plating, sprintfD ship.Speed, sprintfD ship.Weapons]
    (.ofInt ship.SpaceAvailable))

/-- One pass of the `for` loop of `run`: its events, and the user that the next
pass starts from, `none` when the process ended in this pass. -/
structure Cycle where
  events : List Event
  next : Option User

/-- The body of the `for` loop of `run`, for a pass that takes `elapsed` nanoseconds
up to its `time.Since(startTime)`. -/
def cycle (user : User) (elapsed : Int) : Cycle :=
  match user.GetStatus with
  | (_, _, some err) => ⟨[.fetched .GetStatus (some err), .fatal err], none⟩
  | (user, status, none) =>
    let evStatus : List Event :=
      [.fetched .GetStatus none,
        .published (GameStatus.set [user.Details.Username] (.ofInt status))]
    match user.GetDetails with
    | (_, .panicked msg) => ⟨evStatus ++ [.panicked .GetDetails msg], none⟩
    | (_, .returned (some err)) =>
      ⟨evStatus ++ [.fetched .GetDetails (some err), .fatal err], none⟩
    | (user, .returned none) =>
      let evDetails : List Event :=
        [.fetched .GetDetails none,
          .published (Credits.set [user.Details.Username] (.ofInt user.Details.Credits)),
          .published (ShipCount.set [user.Details.Username] (.ofInt user.Details.ShipCount)),
          .published
            (StructureCount.set [user.Details.Username] (.ofInt user.Details.StructureCount))]
      match user.GetLeaderboard with
      | (_, _, some err) =>
        ⟨evStatus ++ evDetails ++ [.fetched .GetLeaderboard (some err), .fatal err], none⟩
      | (_, none, none) =>
        ⟨evStatus ++ evDetails ++ [.fetched .GetLeaderboard none,
            .panic "invalid memory address or nil pointer dereference"],
          none⟩
      | (user, some board, none) =>
        let evBoard : List Event :=
          [.fetched .GetLeaderboard none,
            .published
              (UserRank.gauge.set [user.Details.Username] (.ofInt board.UserNetWorth.Rank))]
        match user.GetShips with
        | (_, _, some err) =>
          ⟨evStatus ++ evDetails ++ evBoard ++ [.fetched .GetShips (some err), .fatal err],
            none⟩
        | (_, none, none) =>
          ⟨evStatus ++ evDetails ++ evBoard ++ [.fetched .GetShips none,
              .panic "invalid memory address or nil pointer dereference"],
            none⟩
        | (user, some ships, none) =>
          ⟨evStatus ++ evDetails ++ evBoard ++ [.fetched .GetShips none]
              ++ ships.Ships.map (publishShip user.Details.Username)
              ++ [.sleep (sleepArg elapsed)],
            some user⟩

/-- The `for` loop of `run`, followed for `fuel` passes from pass number `i`;
`clock j` is the time that pass `j` takes, in nanoseconds. -/
def runLoop (clock : Nat → Int) : Nat → Nat → User → List Event
  | 0, _, _ => []
  | fuel + 1, i, user =>
    match cycle user (clock i) with
    | ⟨events, none⟩ => events
    | ⟨events, some user⟩ => events ++ runLoop clock fuel (i + 1) user

/-- `run`, from `component.NewUser` on, with the proxy that `NewUser` builds given
as an argument: the login, then the loop.  (The tracing set-up before it is left
out.) -/
def run (proxy : Proxy) (token : String) (clock : Nat → Int) (fuel : Nat) : List Event :=
  match NewUserCustomProxy proxy token with
  | (_, .panicked msg) => [.panicked .GetDetails msg]
  | (_, .returned (_, some err)) => [.fetched .GetDetails (some err), .fatal err]
  | (_, .returned (none, none)) =>
    [.fetched .GetDetails none, .panic "invalid memory address or nil pointer dereference"]
  | (_, .returned (some user, none)) => .fetched .GetDetails none :: runLoop clock fuel 0 user

/-- The fetch operations called in a trace, in order. -/
def fetches : List Event → List Fetch
  | [] => []
  | .fetched op _ :: rest => op :: fetches rest
  | .panicked op _ :: rest => op :: fetches rest
  | _ :: rest => fetches rest

/-- The gauge observations of a trace, in order. -/
def observations : List Event → List Observation
  | [] => []
  | .published o :: rest => o :: observations rest
  | _ :: rest => observations rest

/-- The error of the first fetch of a trace that returned one, with the events
that follow that fetch. -/
def afterFirstError : List Event → Option (GoError × List Event)
  | [] => none
  | .fetched _ (some err) :: rest => some (err, rest)
  | _ :: rest => afterFirstError rest

/-- Whether the process ended within a trace: the trace holds a `log.Fatal` or a
panic. -/
def ended : List Event → Bool
  | [] => false
  | .fatal _ :: _ => true
  | .panicked _ _ :: _ => true
  | .panic _ :: _ => true
  | _ :: rest => ended rest

/-- The order of the fetch calls in one pass of the loop. -/
def cycleOrder : List Fetch := [.GetStatus, .GetDetails, .GetLeaderboard, .GetShips]

/-! ## What a payload holds

Accessors over the document tree, used to state what the operations do in terms
of the payload rather than in terms of the decoder. -/

/-- The value under `key` in a mapping whose keys are distinct. -/
def Yaml.get? (n : Yaml) (key : String) : Option Yaml :=
  match n with
  | .map entries => if dupKeyErrors entries = [] then entries.lookup key else none
  | _ => none

/-- The text of a scalar that is not null, and `""` for any other node. -/
def Yaml.text : Yaml → String
  | .scalar _ .null => ""
  | .scalar raw _ => raw
  | _ => ""

/-- The text of a scalar that is not null. -/
def Yaml.text? : Yaml → Option String
  | .scalar _ .null => none
  | .scalar raw _ => some raw
  | _ => none

/-- The 64-bit integer a scalar gives: an integer that fits, or a float that is
at most `math.MaxInt64`, converted. -/
def Yaml.intValue? : Yaml → Option Int
  | .scalar _ (.int i) => if inInt64 i then some i else none
  | .scalar _ (.float (some i)) => some (wrap64 i)
  | _ => none

/-- The root node of a payload that parses. -/
def Payload.root? : Payload → Option Yaml
  | .doc root => some root
  | .malformed _ => none

/-- The message of the error object embedded in a payload (`error.message`), `""`
when there is none. -/
def Payload.errorMessage (data : Payload) : String :=
  match (data.root?.bind (Yaml.get? · "error")).bind (Yaml.get? · "message") with
  | some v => v.text
  | none => ""

/-- The code of the error object embedded in a payload (`error.code`), when it
carries one. -/
def Payload.errorCode? (data : Payload) : Option Int :=
  ((data.root?.bind (Yaml.get? · "error")).bind (Yaml.get? · "code")).bind Yaml.intValue?

/-- Whether a payload is a null document. -/
def Payload.isNull : Payload → Bool
  | .doc (.scalar _ .null) => true
  | _ => false

/-- The scalar under `user.<key>` of a payload. -/
def Payload.userField? (data : Payload) (key : String) : Option Yaml :=
  (data.root?.bind (Yaml.get? · "user")).bind (Yaml.get? · key)

/-- The account details a payload holds: each field is the scalar under
`user.<key>`, and the field of `old` where the payload has no such scalar. -/
def Payload.accountDetails (data : Payload) (old : UserDetails) : UserDetails :=
  { Credits := ((data.userField? "credits").bind Yaml.intValue?).getD old.Credits
    JoinedAt := ((data.userField? "joinedAt").bind Yaml.text?).getD old.JoinedAt
    ShipCount := ((data.userField? "shipCount").bind Yaml.intValue?).getD old.ShipCount
    StructureCount :=
      ((data.userField? "structureCount").bind Yaml.intValue?).getD old.StructureCount
    Username := ((data.userField? "username").bind Yaml.text?).getD old.Username }

/-! ## Sample proxies and payloads -/

/-- A proxy that answers each method with a fixed `([]byte, error)`. -/
def fixedProxy (answer : Endpoint → Payload × Option GoError) : Proxy :=
  ⟨fun _ ep => answer ep, []⟩

/-- The body `{"error": {"message": "Token was invalid or missing from the request.",
"code": 40101}}`: an error object and no domain field. -/
def tokenErrorPayload : Payload :=
  .doc (.map [("error", .map [("message", .str "Token was invalid or missing from the request."),
                              ("code", .int 40101)])])

/-- An account payload that also carries an error object with a code and an empty
message. -/
def accountWithCodePayload : Payload :=
  .doc (.map [("user", .map [("username", .str "otavio"), ("credits", .int 1000),
                             ("shipCount", .int 2), ("structureCount", .int 0),
                             ("joinedAt", .str "2021-03-08T20:41:22.533Z")]),
              ("error", .map [("code", .int 42), ("message", .str "")])])

/-- A user whose proxy answers every call with `tokenErrorPayload` and no
transport error. -/
def tokenErrorUser : User := freshUser "t" (fixedProxy fun _ => (tokenErrorPayload, none))

/-- A user, with an error stored from before, whose proxy answers every call with
`accountWithCodePayload` and no transport error. -/
def accountWithCodeUser : User :=
  { freshUser "t" (fixedProxy fun _ => (accountWithCodePayload, none)) with
    Error := ⟨"an earlier error", 500⟩ }

/-- A ship list of two ships, with 10 and 20 units of free cargo space. -/
def twoShipsPayload : Payload :=
  .doc (.map [("ships", .seq [
    .map [("id", .str "ckno8ylc60014e7nzwx5a9yqg"), ("class", .str "MK-I"),
          ("manufacturer", .str "Jackshaw"), ("type", .str "JW-MK-I"),
          ("location", .str "OE-PM-TR"), ("maxCargo", .int 50), ("plating", .int 5),
          ("spaceAvailable", .int 10), ("speed", .int 1), ("weapons", .int 5),
          ("x", .int 21), ("y", .int (-24))],
    .map [("id", .str "ckno9xh2q0163e7nz8qk1fc3f"), ("class", .str "MK-II"),
          ("manufacturer", .str "Gravager"), ("type", .str "GR-MK-II"),
          ("location", .str "OE-PM"), ("maxCargo", .int 300), ("plating", .int 10),
          ("spaceAvailable", .int 20), ("speed", .int 2), ("weapons", .int 10),
          ("x", .int 20), ("y", .int (-25))]])])

/-- The two ships of `twoShipsPayload`. -/
def twoShips : ShipList :=
  ⟨[⟨"MK-I", "", "ckno8ylc60014e7nzwx5a9yqg", "OE-PM-TR", "Jackshaw", 50, 5, 10, 1, "JW-MK-I", 5,
      21, -24⟩,
    ⟨"MK-II", "", "ckno9xh2q0163e7nz8qk1fc3f", "OE-PM", "Gravager", 300, 10, 20, 2, "GR-MK-II",
      10, 20, -25⟩]⟩

/-- An account payload: username `otavio`, 1000 credits, 2 ships. -/
def accountPayload : Payload :=
  .doc (.map [("user", .map [("username", .str "otavio"), ("credits", .int 1000),
                             ("shipCount", .int 2), ("structureCount", .int 0),
                             ("joinedAt", .str "2021-03-08T20:41:22.533Z")])])

/-- A leaderboard payload in which the user has rank 5. -/
def leaderboardPayload : Payload :=
  .doc (.map [("netWorth", .seq [
                .map [("username", .str "first"), ("netWorth", .int 900000), ("rank", .int 1)],
                .map [("username", .str "second"), ("netWorth", .int 800000), ("rank", .int 2)]]),
              ("userNetWorth", .map [("username", .str "otavio"), ("netWorth", .int 251000),
                                     ("rank", .int 5)])])

/-- The body `{"status": "spacetraders is currently online and available to play"}`. -/
def onlinePayload : Payload := .doc (.map [("status", .str onlineStatus)])

/-- A proxy that answers every call with the body `null` and no transport error. -/
def nullProxy : Proxy := fixedProxy fun _ => (.doc .null, none)

/-- A proxy on which every method succeeds: the game is online, the account is
`accountPayload`, the user has rank 5 and owns the two ships of `twoShipsPayload`. -/
def gameProxy : Proxy :=
  fixedProxy fun ep =>
    match ep with
    | .GetUserDetails => (accountPayload, none)
    | .GetShipList => (twoShipsPayload, none)
    | .GetLeaderboard => (leaderboardPayload, none)
    | .GetGameStatus => (onlinePayload, none)

/-- A proxy that works for the login and one pass of the loop, and whose sixth
call fails. -/
def failingProxy : Proxy :=
  ⟨fun calls ep =>
    if calls.length < 5 then gameProxy.respond calls ep
    else (.malformed "", some (.other "connection refused")), []⟩

/-- The user as the login on `gameProxy` leaves it. -/
def gameUser : User :=
  ⟨"t", ⟨gameProxy.respond, [.GetUserDetails]⟩,
    ⟨1000, "2021-03-08T20:41:22.533Z", 2, 0, "otavio"⟩, ⟨"", -1⟩⟩

/-- The user `gameUser` after one pass of the loop. -/
def gameUserAfterPass : User :=
  { gameUser with webProxy :=
      ⟨gameProxy.respond,
        [.GetUserDetails, .GetGameStatus, .GetUserDetails, .GetLeaderboard, .GetShipList]⟩ }

/-! ### Lemmas on the retry loop -/

/-- A timed-out attempt costs one iteration and one sleep, and leaves `count` alone. -/
theorem getLoop_timeout_step (http : String → Nat → HttpResult) (uri : String)
    (fuel : Nat) (count : Int) (a : Nat) (sleeps : List Int) (e : UrlError)
    (hc : count < maxRetriesTimeout) (he : http uri a = .failure e) (ht : e.timeout = true) :
    getLoop http uri (fuel + 1) count a sleeps
      = getLoop http uri fuel count (a + 1) (sleeps ++ [waitTimeout * timeSecond]) := by
  simp [getLoop, hc, he, ht]

/-- After `n` timed-out attempts the loop is where it started, `n` attempts and
`n` sleeps later. -/
theorem getLoop_timeouts (http : String → Nat → HttpResult) (uri : String) (count : Int)
    (hc : count < maxRetriesTimeout) :
    ∀ (n fuel a : Nat) (sleeps : List Int),
      (∀ i, i < n → ∃ e, http uri (a + i) = .failure e ∧ e.timeout = true) →
      getLoop http uri (n + fuel) count a sleeps
        = getLoop http uri fuel count (a + n)
            (sleeps ++ List.replicate n (waitTimeout * timeSecond)) := by
  intro n
  induction n with
  | zero => intro fuel a sleeps _; simp
  | succ n ih =>
    intro fuel a sleeps h
    obtain ⟨e, he, ht⟩ := h 0 (Nat.succ_pos n)
    have hstep : n + 1 + fuel = (n + fuel) + 1 := by omega
    rw [hstep, getLoop_timeout_step http uri (n + fuel) count a sleeps e hc (by simpa using he) ht]
    rw [ih fuel (a + 1) (sleeps ++ [waitTimeout * timeSecond])]
    · have : a + 1 + n = a + (n + 1) := by omega
      rw [this, List.append_assoc]
      congr 2
    · intro i hi
      have := h (i + 1) (by omega)
      have hidx : a + 1 + i = a + (i + 1) := by omega
      rw [hidx]
      exact this

/-! ### Lemmas on decoding -/

/-- Go's `len(s) > 0` holds exactly for the strings other than `""`. -/
theorem len_pos_iff (s : String) : 0 < len s ↔ s ≠ "" := by
  cases s with
  | mk cs =>
    cases cs with
    | nil => simp [len, String.utf8ByteSize, String.utf8ByteSize.go]
    | cons c cs =>
      have hc := Char.utf8Size_pos c
      have hne : (String.mk (c :: cs)) ≠ "" := by
        intro h
        have := congrArg String.data h
        simp at this
      simp only [len, String.utf8ByteSize, String.utf8ByteSize.go, ne_eq, hne,
        not_false_eq_true, iff_true]
      omega

/-- A key that no entry of a list has is not found in it. -/
theorem lookup_eq_none_of_filter (k : String) :
    ∀ (rest : List (String × Yaml)), rest.filter (fun kv => kv.1 == k) = [] →
      rest.lookup k = none := by
  intro rest
  induction rest with
  | nil => intro _; rfl
  | cons kv rest ih =>
    intro h
    obtain ⟨k1, v1⟩ := kv
    rw [List.filter_cons] at h
    by_cases hk : (k1 == k) = true
    · simp [hk] at h
    · simp only [hk, Bool.false_eq_true, ↓reduceIte] at h
      have hk2 : (k == k1) = false := by
        simp only [beq_iff_eq, Bool.not_eq_true, beq_eq_false_iff_ne, ne_eq] at hk ⊢
        exact fun h2 => hk h2.symm
      simp [List.lookup, hk2, ih h]

/-- The unique-key check passes on a list exactly when its head key is not
repeated and it passes on the tail. -/
theorem dupKeyErrors_cons (k : String) (v : Yaml) (rest : List (String × Yaml)) :
    dupKeyErrors ((k, v) :: rest) = [] ↔
      rest.filter (fun kv => kv.1 == k) = [] ∧ dupKeyErrors rest = [] := by
  simp [dupKeyErrors]

/-- Decoding the entries of a mapping of distinct keys into a struct sets a
component `proj` of the struct that only key `k0` writes to what the entry of
`k0` gives, and leaves it alone when the mapping has no such entry. -/
theorem foldl_setField_proj {α β : Type} (setField : String → Yaml → α → α × List String)
    (proj : α → β) (k0 : String) (g : Yaml → β → β)
    (hk : ∀ v a, proj (setField k0 v a).1 = g v (proj a))
    (hne : ∀ k v a, k ≠ k0 → proj (setField k v a).1 = proj a) :
    ∀ (entries : List (String × Yaml)) (a : α) (errs : List String),
      dupKeyErrors entries = [] →
      proj (entries.foldl
          (fun acc kv => ((setField kv.1 kv.2 acc.1).1, acc.2 ++ (setField kv.1 kv.2 acc.1).2))
          (a, errs)).1
        = match entries.lookup k0 with
          | none => proj a
          | some v => g v (proj a) := by
  intro entries
  induction entries with
  | nil => intro a errs _; rfl
  | cons kv rest ih =>
    intro a errs hdup
    obtain ⟨k, v⟩ := kv
    obtain ⟨hfilter, hrest⟩ := (dupKeyErrors_cons k v rest).1 hdup
    rw [List.foldl_cons, ih _ _ hrest]
    by_cases hkk : k = k0
    · subst hkk
      have hnone := lookup_eq_none_of_filter k rest hfilter
      simp [List.lookup, hnone, hk]
    · have hb : (k0 == k) = false := by
        simp only [beq_eq_false_iff_ne, ne_eq]
        exact fun h => hkk h.symm
      simp only [List.lookup, hb, hne k v a hkk]

/-- An error that `Decode` returns is a yaml error. -/
theorem decode_error_yaml {α : Type} (unmarshal : Yaml → α → Decoded α) (data : Payload)
    (target : α) (e : GoError) (h : (decode unmarshal data target).2 = some e) :
    ∃ msgs, e = .yaml msgs := by
  cases data with
  | malformed err =>
    simp only [decode, Option.some.injEq] at h
    exact ⟨[err], h.symm⟩
  | doc root =>
    simp only [decode] at h
    split at h
    · simp at h
    · simp only [Option.some.injEq] at h
      exact ⟨_, h.symm⟩

/-- The struct version of `foldl_setField_proj`: what unmarshalling any node into
a struct does to a component that only key `k0` writes. -/
theorem unmarshalStruct_proj {α β : Type} (ty : String)
    (setField : String → Yaml → α → α × List String)
    (proj : α → β) (k0 : String) (g : Yaml → β → β)
    (hk : ∀ v a, proj (setField k0 v a).1 = g v (proj a))
    (hne : ∀ k v a, k ≠ k0 → proj (setField k v a).1 = proj a) (n : Yaml) (a : α) :
    proj (unmarshalStruct ty setField n a).out
      = match n.get? k0 with
        | none => proj a
        | some v => g v (proj a) := by
  cases n with
  | scalar raw res => cases res <;> simp [unmarshalStruct, Yaml.get?]
  | seq items => simp [unmarshalStruct, Yaml.get?]
  | map entries =>
    by_cases hdup : dupKeyErrors entries = []
    · simp only [unmarshalStruct, hdup, ↓reduceIte, Yaml.get?]
      exact foldl_setField_proj setField proj k0 g hk hne entries a [] hdup
    · simp [unmarshalStruct, hdup, Yaml.get?]

/-- A string field that was empty holds the text of the node decoded into it. -/
theorem unmarshalString_out (v : Yaml) : (unmarshalString v "").out = v.text := by
  cases v with
  | scalar raw res => cases res <;> rfl
  | seq items => simp [unmarshalString, notStored, Yaml.text]
  | map entries =>
    simp only [unmarshalString, notStored, Yaml.text]
    split <;> rfl

/-- A string field holds the text of the node decoded into it, and keeps its value
when the node has none. -/
theorem unmarshalString_out_getD (v : Yaml) (old : String) :
    (unmarshalString v old).out = v.text?.getD old := by
  cases v with
  | scalar raw res => cases res <;> rfl
  | seq items => simp [unmarshalString, notStored, Yaml.text?]
  | map entries =>
    simp only [unmarshalString, notStored, Yaml.text?]
    split <;> rfl

/-- An integer field holds the integer of the node decoded into it, and keeps its
value when the node holds none. -/
theorem unmarshalInt_out (ty : String) (v : Yaml) (old : Int) :
    (unmarshalInt ty v old).out = v.intValue?.getD old := by
  cases v with
  | scalar raw res =>
    cases res with
    | int i => simp only [unmarshalInt, Yaml.intValue?]; split <;> rfl
    | float toInt64 =>
      cases toInt64 with
      | none => rfl
      | some i => rfl
    | null => rfl
    | bool b => rfl
    | str => rfl
  | seq items => simp [unmarshalInt, notStored, Yaml.intValue?]
  | map entries =>
    simp only [unmarshalInt, notStored, Yaml.intValue?]
    split <;> rfl

/-- Decoding a node into an `Error` that holds the sentinel leaves the message and
the code that the node carries, the sentinel's where it carries none. -/
theorem unmarshal_Error_out (en : Yaml) :
    (unmarshalStruct "component.Error" Error.setField en ⟨"", -1⟩).out
      = ⟨match en.get? "message" with
          | some v => v.text
          | none => "",
         ((en.get? "code").bind Yaml.intValue?).getD (-1)⟩ := by
  have hm := unmarshalStruct_proj "component.Error" Error.setField Error.Message "message"
    (fun v m => (unmarshalString v m).out)
    (by intro v a; simp [Error.setField])
    (by
      intro k v a hk
      simp only [Error.setField, hk, ↓reduceIte]
      split <;> rfl)
    en ⟨"", -1⟩
  have hc := unmarshalStruct_proj "component.Error" Error.setField Error.Code "code"
    (fun v c => (unmarshalInt "int" v c).out)
    (by intro v a; simp [Error.setField])
    (by
      intro k v a hk
      simp only [Error.setField, hk, ↓reduceIte]
      split <;> rfl)
    en ⟨"", -1⟩
  have hm2 : (unmarshalStruct "component.Error" Error.setField en ⟨"", -1⟩).out.Message
      = match en.get? "message" with
        | some v => v.text
        | none => "" := by
    rw [hm]
    cases en.get? "message" with
    | none => rfl
    | some v => exact unmarshalString_out v
  have hc2 : (unmarshalStruct "component.Error" Error.setField en ⟨"", -1⟩).out.Code
      = ((en.get? "code").bind Yaml.intValue?).getD (-1) := by
    rw [hc]
    cases en.get? "code" with
    | none => rfl
    | some v => exact unmarshalInt_out "int" v (-1)
  rw [← hm2, ← hc2]

/-- What `Decode(&u)` leaves in `u.Error` when it held the sentinel: the message
and the code of the payload's error object. -/
theorem decode_User_Error (data : Payload) (u : User) (hE : u.Error = ⟨"", -1⟩) :
    (decode (unmarshalStruct "component.User" User.setField) data u).1.Error
      = ⟨data.errorMessage, data.errorCode?.getD (-1)⟩ := by
  cases data with
  | malformed err => simp [decode, hE, Payload.errorMessage, Payload.errorCode?, Payload.root?]
  | doc root =>
    have h := unmarshalStruct_proj "component.User" User.setField User.Error "error"
      (fun v e => (unmarshalStruct "component.Error" Error.setField v e).out)
      (by intro v a; simp [User.setField])
      (by
        intro k v a hk
        simp only [User.setField, hk, ↓reduceIte]
        split <;> rfl)
      root u
    simp only [decode, Payload.errorMessage, Payload.errorCode?, Payload.root?, Option.bind]
    rw [h, hE]
    cases root.get? "error" with
    | none => rfl
    | some en => exact unmarshal_Error_out en

/-- What `Decode(&u)` leaves in `u.Details`: the node under `user` decoded over the
details held before, and those details unchanged when the payload has no such
node. -/
theorem decode_User_Details_node (data : Payload) (u : User) :
    (decode (unmarshalStruct "component.User" User.setField) data u).1.Details
      = match data.root?.bind (Yaml.get? · "user") with
        | some n => (unmarshalStruct "component.UserDetails" UserDetails.setField n u.Details).out
        | none => u.Details := by
  cases data with
  | malformed err => simp [decode, Payload.root?]
  | doc root =>
    have h := unmarshalStruct_proj "component.User" User.setField User.Details "user"
      (fun v d => (unmarshalStruct "component.UserDetails" UserDetails.setField v d).out)
      (by intro v a; simp [User.setField])
      (by
        intro k v a hk
        simp only [User.setField, hk, ↓reduceIte]
        split <;> rfl)
      root u
    simp only [decode, Payload.root?, Option.bind]
    rw [h]
    cases root.get? "user" <;> rfl

/-- Decoding a node into a `UserDetails` sets each field to the scalar that the
node holds under the key of the field, and leaves the field alone when it holds
none. -/
theorem unmarshal_UserDetails_out (n : Yaml) (old : UserDetails) :
    (unmarshalStruct "component.UserDetails" UserDetails.setField n old).out
      = { Credits := ((n.get? "credits").bind Yaml.intValue?).getD old.Credits
          JoinedAt := ((n.get? "joinedAt").bind Yaml.text?).getD old.JoinedAt
          ShipCount := ((n.get? "shipCount").bind Yaml.intValue?).getD old.ShipCount
          StructureCount :=
            ((n.get? "structureCount").bind Yaml.intValue?).getD old.StructureCount
          Username := ((n.get? "username").bind Yaml.text?).getD old.Username } := by
  have hcr := unmarshalStruct_proj "component.UserDetails" UserDetails.setField
    UserDetails.Credits "credits" (fun v c => (unmarshalInt "int64" v c).out)
    (by intro v a; simp [UserDetails.setField])
    (by
      intro k v a hk
      simp only [UserDetails.setField, hk, ↓reduceIte]
      split_ifs <;> rfl)
    n old
  have hjo := unmarshalStruct_proj "component.UserDetails" UserDetails.setField
    UserDetails.JoinedAt "joinedAt" (fun v c => (unmarshalString v c).out)
    (by intro v a; simp [UserDetails.setField])
    (by
      intro k v a hk
      simp only [UserDetails.setField, hk, ↓reduceIte]
      split_ifs <;> rfl)
    n old
  have hsh := unmarshalStruct_proj "component.UserDetails" UserDetails.setField
    UserDetails.ShipCount "shipCount" (fun v c => (unmarshalInt "int64" v c).out)
    (by intro v a; simp [UserDetails.setField])
    (by
      intro k v a hk
      simp only [UserDetails.setField, hk, ↓reduceIte]
      split_ifs <;> rfl)
    n old
  have hst := unmarshalStruct_proj "component.UserDetails" UserDetails.setField
    UserDetails.StructureCount "structureCount" (fun v c => (unmarshalInt "int64" v c).out)
    (by intro v a; simp [UserDetails.setField])
    (by
      intro k v a hk
      simp only [UserDetails.setField, hk, ↓reduceIte]
      split_ifs <;> rfl)
    n old
  have hus := unmarshalStruct_proj "component.UserDetails" UserDetails.setField
    UserDetails.Username "username" (fun v c => (unmarshalString v c).out)
    (by intro v a; simp [UserDetails.setField])
    (by
      intro k v a hk
      simp only [UserDetails.setField, hk, ↓reduceIte]
      split_ifs <;> rfl)
    n old
  have e1 : (unmarshalStruct "component.UserDetails" UserDetails.setField n old).out.Credits
      = ((n.get? "credits").bind Yaml.intValue?).getD old.Credits := by
    rw [hcr]
    cases n.get? "credits" with
    | none => rfl
    | some v => exact unmarshalInt_out "int64" v old.Credits
  have e2 : (unmarshalStruct "component.UserDetails" UserDetails.setField n old).out.JoinedAt
      = ((n.get? "joinedAt").bind Yaml.text?).getD old.JoinedAt := by
    rw [hjo]
    cases n.get? "joinedAt" with
    | none => rfl
    | some v => exact unmarshalString_out_getD v old.JoinedAt
  have e3 : (unmarshalStruct "component.UserDetails" UserDetails.setField n old).out.ShipCount
      = ((n.get? "shipCount").bind Yaml.intValue?).getD old.ShipCount := by
    rw [hsh]
    cases n.get? "shipCount" with
    | none => rfl
    | some v => exact unmarshalInt_out "int64" v old.ShipCount
  have e4 :
      (unmarshalStruct "component.UserDetails" UserDetails.setField n old).out.StructureCount
        = ((n.get? "structureCount").bind Yaml.intValue?).getD old.StructureCount := by
    rw [hst]
    cases n.get? "structureCount" with
    | none => rfl
    | some v => exact unmarshalInt_out "int64" v old.StructureCount
  have e5 : (unmarshalStruct "component.UserDetails" UserDetails.setField n old).out.Username
      = ((n.get? "username").bind Yaml.text?).getD old.Username := by
    rw [hus]
    cases n.get? "username" with
    | none => rfl
    | some v => exact unmarshalString_out_getD v old.Username
  rw [← e1, ← e2, ← e3, ← e4, ← e5]

/-- What `Decode(&u)` leaves in `u.Details`: each field is the scalar that the
payload holds under `user.<key>`, and is unchanged when the payload holds none. -/
theorem decode_User_Details (data : Payload) (u : User) :
    (decode (unmarshalStruct "component.User" User.setField) data u).1.Details
      = data.accountDetails u.Details := by
  rw [decode_User_Details_node]
  unfold Payload.accountDetails Payload.userField?
  cases data.root?.bind (Yaml.get? · "user") with
  | none => rfl
  | some n => exact unmarshal_UserDetails_out n u.Details

/-- `Decode(&u)` leaves the unexported fields of the user alone. -/
theorem decode_User_unexported (data : Payload) (u : User) :
    (decode (unmarshalStruct "component.User" User.setField) data u).1.token = u.token ∧
    (decode (unmarshalStruct "component.User" User.setField) data u).1.webProxy = u.webProxy := by
  cases data with
  | malformed err => simp [decode]
  | doc root =>
    have ht := unmarshalStruct_proj "component.User" User.setField User.token "user"
      (fun _ t => t)
      (by intro v a; simp [User.setField])
      (by
        intro k v a hk
        simp only [User.setField, hk, ↓reduceIte]
        split <;> rfl)
      root u
    have hp := unmarshalStruct_proj "component.User" User.setField User.webProxy "user"
      (fun _ t => t)
      (by intro v a; simp [User.setField])
      (by
        intro k v a hk
        simp only [User.setField, hk, ↓reduceIte]
        split <;> rfl)
      root u
    simp only [decode]
    rw [ht, hp]
    cases root.get? "user" <;> exact ⟨rfl, rfl⟩

/-! ### Lemmas on 64-bit arithmetic -/

/-- An integer in the range of an `int64` is not changed by the wrap. -/
theorem wrap64_of_inRange (x : Int) (hlo : -(2 ^ 63) ≤ x) (hhi : x < 2 ^ 63) : wrap64 x = x := by
  unfold wrap64
  rw [Int.emod_eq_of_lt (by omega) (by omega)]
  omega

/-- The `time.Sleep` argument that ends a pass, for an elapsed time that a
`time.Duration` can hold: no step of its computation overflows. -/
theorem sleepArg_eq (elapsed : Int) (h0 : 0 ≤ elapsed) (h1 : elapsed < 2 ^ 63) :
    sleepArg elapsed = (300000 - elapsed / 1000000) * 1000000 := by
  have htdiv : elapsed.tdiv 1000000 = elapsed / 1000000 :=
    Int.tdiv_eq_ediv h0 (by decide)
  have hq0 : 0 ≤ elapsed / 1000000 := Int.ediv_nonneg h0 (by decide)
  have hq1 : elapsed / 1000000 ≤ 9223372036854 := by omega
  unfold sleepArg collectionFrequency timeMillisecond
  rw [htdiv, wrap64_of_inRange (300000 - elapsed / 1000000) (by omega) (by omega),
    wrap64_of_inRange _ (by omega) (by omega)]

/-! ### Lemmas on traces -/

/-- The fetches of two traces in a row. -/
theorem fetches_append (a b : List Event) : fetches (a ++ b) = fetches a ++ fetches b := by
  induction a with
  | nil => rfl
  | cons ev a ih => cases ev <;> simp [fetches, ih]

/-- Publishing the ships calls no fetch. -/
theorem fetches_publishShip (username : String) (ships : List Ship) :
    fetches (ships.map (publishShip username)) = [] := by
  induction ships with
  | nil => rfl
  | cons ship ships ih => simpa [fetches, publishShip] using ih

/-- The observations of two traces in a row. -/
theorem observations_append (a b : List Event) :
    observations (a ++ b) = observations a ++ observations b := by
  induction a with
  | nil => rfl
  | cons ev a ih => cases ev <;> simp [observations, ih]

/-- The observations made when the ships are published: one for each ship, in list
order. -/
theorem observations_publishShip (username : String) (ships : List Ship) :
    observations (ships.map (publishShip username))
      = ships.map (fun ship => ShipLoad.set
          [username, ship.Id, ship.Class, ship.Manufacturer, ship.Type_, sprintfD ship.MaxCargo,
            sprintfD ship.Plating, sprintfD ship.Speed, sprintfD ship.Weapons]
          (.ofInt ship.SpaceAvailable)) := by
  induction ships with
  | nil => rfl
  | cons ship ships ih => simpa [observations, publishShip] using ih

/-- A trace without a failed fetch adds nothing before the first failed fetch of
the trace that follows it. -/
theorem afterFirstError_append_none (a b : List Event) (h : afterFirstError a = none) :
    afterFirstError (a ++ b) = afterFirstError b := by
  induction a with
  | nil => rfl
  | cons ev a ih =>
    cases ev with
    | fetched op err =>
      cases err with
      | none => simpa [afterFirstError] using ih (by simpa [afterFirstError] using h)
      | some e => simp [afterFirstError] at h
    | panicked op msg => simpa [afterFirstError] using ih (by simpa [afterFirstError] using h)
    | panic msg => simpa [afterFirstError] using ih (by simpa [afterFirstError] using h)
    | published o => simpa [afterFirstError] using ih (by simpa [afterFirstError] using h)
    | fatal e => simpa [afterFirstError] using ih (by simpa [afterFirstError] using h)
    | sleep d => simpa [afterFirstError] using ih (by simpa [afterFirstError] using h)

/-- A fetch that returned nil is not a failed fetch. -/
theorem afterFirstError_fetched_none (op : Fetch) (rest : List Event) :
    afterFirstError (.fetched op none :: rest) = afterFirstError rest := rfl

/-- An observation is not a failed fetch. -/
theorem afterFirstError_published (o : Observation) (rest : List Event) :
    afterFirstError (.published o :: rest) = afterFirstError rest := rfl

/-- Publishing the ships holds no failed fetch. -/
theorem afterFirstError_publishShip (username : String) (ships : List Ship) :
    afterFirstError (ships.map (publishShip username)) = none := by
  induction ships with
  | nil => rfl
  | cons ship ships ih => simpa [afterFirstError, publishShip] using ih

/-- The process ended within two traces in a row when it ended within one. -/
theorem ended_append (a b : List Event) : ended (a ++ b) = (ended a || ended b) := by
  induction a with
  | nil => rfl
  | cons ev a ih => cases ev <;> simp [ended, ih]

/-- Publishing the ships does not end the process. -/
theorem ended_publishShip (username : String) (ships : List Ship) :
    ended (ships.map (publishShip username)) = false := by
  induction ships with
  | nil => rfl
  | cons ship ships ih => simpa [ended, publishShip] using ih

/-- One pass of the loop, by how it ends.  Either the process ended in it: then its
fetches are the first `k` of the order of a pass, and what follows its failed
fetch, if it has one, is the `log.Fatal` of that error and nothing else.  Or it
ran to its end: then its fetches are the four of a pass, in order, none of them
failed, and its last event is its sleep. -/
theorem cycle_cases (user : User) (elapsed : Int) :
    ((cycle user elapsed).next = none ∧
      (∃ k, k ≤ 4 ∧ fetches (cycle user elapsed).events = cycleOrder.take k) ∧
      (∀ err rest, afterFirstError (cycle user elapsed).events = some (err, rest) →
        rest = [.fatal err]) ∧
      ended (cycle user elapsed).events = true) ∨
    ((∃ user', (cycle user elapsed).next = some user') ∧
      fetches (cycle user elapsed).events = cycleOrder ∧
      afterFirstError (cycle user elapsed).events = none ∧
      (cycle user elapsed).events.getLast? = some (.sleep (sleepArg elapsed)) ∧
      ended (cycle user elapsed).events = false) := by
  unfold cycle
  split
  · left
    refine ⟨rfl, ⟨1, by decide, rfl⟩, ?_, rfl⟩
    intro err rest h
    simp only [afterFirstError, Option.some.injEq, Prod.mk.injEq] at h
    rw [← h.2, h.1]
  · split
    · left
      refine ⟨rfl, ⟨2, by decide, rfl⟩, ?_, rfl⟩
      intro err rest h
      simp [afterFirstError] at h
    · left
      refine ⟨rfl, ⟨2, by decide, rfl⟩, ?_, rfl⟩
      intro err rest h
      simp only [List.cons_append, List.nil_append, afterFirstError, Option.some.injEq,
        Prod.mk.injEq] at h
      rw [← h.2, h.1]
    · split
      · left
        refine ⟨rfl, ⟨3, by decide, rfl⟩, ?_, rfl⟩
        intro err rest h
        simp only [List.cons_append, List.nil_append, afterFirstError, Option.some.injEq,
          Prod.mk.injEq] at h
        rw [← h.2, h.1]
      · left
        refine ⟨rfl, ⟨3, by decide, rfl⟩, ?_, rfl⟩
        intro err rest h
        simp [afterFirstError] at h
      · split
        · left
          refine ⟨rfl, ⟨4, by decide, rfl⟩, ?_, rfl⟩
          intro err rest h
          simp only [List.cons_append, List.nil_append, afterFirstError, Option.some.injEq,
            Prod.mk.injEq] at h
          rw [← h.2, h.1]
        · left
          refine ⟨rfl, ⟨4, by decide, rfl⟩, ?_, rfl⟩
          intro err rest h
          simp [afterFirstError] at h
        · right
          refine ⟨⟨_, rfl⟩, ?_, ?_, ?_, ?_⟩
          · simp [fetches_append, fetches_publishShip, fetches, cycleOrder]
          · simp only [List.cons_append, List.nil_append, List.append_assoc,
              afterFirstError_fetched_none, afterFirstError_published]
            rw [afterFirstError_append_none _ _ (afterFirstError_publishShip _ _)]
            rfl
          · rw [List.getLast?_eq_getLast _ (by simp)]
            simp
          · simp [ended_append, ended_publishShip, ended, GaugeVec.set]

/-! ## Theorems on `WebProxy.get` -/

/-- C2 (as the code behaves): on a server where every attempt times out,
`WebProxy.get` has not returned after any number `fuel` of iterations, and by then
it has made `fuel` attempts and slept `fuel` times: there is no fifth-attempt cut
off, the retries-exhausted error is never produced, and a sixth attempt is made. -/
theorem get_always_timeout_never_returns (http : String → Nat → HttpResult) (uri : String)
    (h : ∀ i, ∃ e, http uri i = .failure e ∧ e.timeout = true) (fuel : Nat) :
    WebProxy.get http uri fuel
      = ⟨none, fuel, List.replicate fuel (10 * 1000000000)⟩ := by
  have key := getLoop_timeouts http uri 0 (by decide) fuel 0 0 []
    (fun i _ => by simpa using h i)
  simp only [Nat.add_zero, Nat.zero_add, List.nil_append] at key
  unfold WebProxy.get
  rw [key]
  simp [getLoop, waitTimeout, timeSecond]

/-- Witness for `get_always_timeout_never_returns`: six iterations on the
always-timing-out server make six attempts and return nothing. -/
theorem get_always_timeout_never_returns_witness :
    WebProxy.get alwaysTimeout "https://api.spacetraders.io/game/status?token=t" 6
      = ⟨none, 6, List.replicate 6 (10 * 1000000000)⟩ :=
  get_always_timeout_never_returns alwaysTimeout _
    (fun _ => ⟨⟨true, "context deadline exceeded"⟩, rfl, rfl⟩) 6

/-- C3: after `n` timed-out attempts followed by an attempt that does not time out,
`WebProxy.get` returns (any fuel above `n` is enough) what that attempt dictates:
the result of reading the body in full, which is the body with no error when the
read succeeds, or the transport error itself with an empty body; it made `n + 1`
attempts and slept exactly `n` times, 10 seconds each. -/
theorem get_returns_first_non_timeout (http : String → Nat → HttpResult) (uri : String)
    (n fuel : Nat) (hfuel : n < fuel)
    (hto : ∀ i, i < n → ∃ e, http uri i = .failure e ∧ e.timeout = true) :
    (∀ body readErr, http uri n = .response body readErr →
        WebProxy.get http uri fuel
          = ⟨some (body, readErr), n + 1, List.replicate n (10 * 1000000000)⟩) ∧
    (∀ body, http uri n = .response body none →
        (WebProxy.get http uri fuel).result = some (body, none)) ∧
    (∀ e, http uri n = .failure e → e.timeout = false →
        WebProxy.get http uri fuel
          = ⟨some ([], some (.url e)), n + 1, List.replicate n (10 * 1000000000)⟩) := by
  obtain ⟨k, rfl⟩ : ∃ k, fuel = n + (k + 1) := ⟨fuel - n - 1, by omega⟩
  have key := getLoop_timeouts http uri 0 (by decide) n (k + 1) 0 []
    (fun i hi => by simpa using hto i hi)
  simp only [Nat.zero_add, List.nil_append] at key
  have hmax : (0 : Int) < maxRetriesTimeout := by decide
  refine ⟨?_, ?_, ?_⟩
  · intro body readErr hn
    unfold WebProxy.get
    rw [key]
    simp [getLoop, hmax, hn, waitTimeout, timeSecond]
  · intro body hn
    unfold WebProxy.get
    rw [key]
    simp [getLoop, hmax, hn]
  · intro e hn ht
    unfold WebProxy.get
    rw [key]
    simp [getLoop, hmax, hn, ht, waitTimeout, timeSecond]

/-- Witness for `get_returns_first_non_timeout`: four timeouts, then a response. -/
theorem get_returns_first_non_timeout_witness :
    WebProxy.get (timeoutsThen 4 (.response [111, 107] none)) "u" 5
      = ⟨some ([111, 107], none), 5, List.replicate 4 (10 * 1000000000)⟩ :=
  (get_returns_first_non_timeout (timeoutsThen 4 (.response [111, 107] none)) "u" 4 5
    (by decide)
    (fun i hi => ⟨⟨true, "context deadline exceeded"⟩, by simp [timeoutsThen, hi], rfl⟩)).1
    [111, 107] none (by simp [timeoutsThen])

/-! ## Theorems on the session operations -/

/-- C6: when the proxy call of an operation returns a transport error `e`, the
operation returns exactly `e` with no typed result (nil, or -1 for `GetStatus`),
and the stored `Details` and `Error` are what they were before the call. -/
theorem transport_error_returned_unchanged (u : User) (ep : Endpoint) (e : GoError)
    (h : (u.webProxy.respond u.webProxy.calls ep).2 = some e) :
    match ep with
    | .GetUserDetails =>
      u.GetDetails.2 = .returned (some e) ∧
        u.GetDetails.1.Details = u.Details ∧ u.GetDetails.1.Error = u.Error
    | .GetShipList =>
      u.GetShips.2 = (none, some e) ∧
        u.GetShips.1.Details = u.Details ∧ u.GetShips.1.Error = u.Error
    | .GetLeaderboard =>
      u.GetLeaderboard.2 = (none, some e) ∧
        u.GetLeaderboard.1.Details = u.Details ∧ u.GetLeaderboard.1.Error = u.Error
    | .GetGameStatus =>
      u.GetStatus.2 = (-1, some e) ∧
        u.GetStatus.1.Details = u.Details ∧ u.GetStatus.1.Error = u.Error := by
  cases ep
  · simp [User.GetDetails, Proxy.call, h]
  · simp [User.GetShips, Proxy.call, h]
  · simp [User.GetLeaderboard, Proxy.call, h]
  · simp [User.GetStatus, Proxy.call, h]

/-- Witness for `transport_error_returned_unchanged`: `GetShips` on a proxy whose
`GetShipList` fails. -/
theorem transport_error_returned_unchanged_witness :
    (freshUser "t" (fixedProxy fun _ => (.malformed "", some (.other "connection refused")))).GetShips.2
        = (none, some (.other "connection refused")) ∧
      (freshUser "t" (fixedProxy fun _ => (.malformed "", some (.other "connection refused")))).GetShips.1.Details
        = ⟨0, "", 0, 0, ""⟩ ∧
      (freshUser "t" (fixedProxy fun _ => (.malformed "", some (.other "connection refused")))).GetShips.1.Error
        = ⟨"", 0⟩ :=
  transport_error_returned_unchanged
    (freshUser "t" (fixedProxy fun _ => (.malformed "", some (.other "connection refused"))))
    .GetShipList (.other "connection refused") rfl

/-- C4: on a payload that comes without a transport error and decodes as a
`map[string]string`, `GetStatus` returns 1 and no error when the entry `status` is
exactly the online text, and -1 and no error otherwise (an absent key reads as
`""`); so it returns no error, and no value other than 1 and -1. -/
theorem GetStatus_maps_status (u : User) (data : Payload) (status : StringMap)
    (hresp : u.webProxy.respond u.webProxy.calls .GetGameStatus = (data, none))
    (hdec : decode (fun n (_ : StringMap) => unmarshalStringMap n) data [] = (status, none)) :
    u.GetStatus.2
        = (if status.index "status" = onlineStatus then 1 else -1, none) ∧
      (status.index "status" = "offline" → u.GetStatus.2 = (-1, none)) ∧
      (status.index "status" = "" → u.GetStatus.2 = (-1, none)) ∧
      (status.lookup "status" = none → u.GetStatus.2 = (-1, none)) ∧
      (u.GetStatus.2 = (1, none) ∨ u.GetStatus.2 = (-1, none)) := by
  have hlen : ¬ (0 < len "") := by decide
  have main : u.GetStatus.2
      = (if status.index "status" = onlineStatus then 1 else -1, none) := by
    simp only [User.GetStatus, Proxy.call, hresp, hdec, hlen, ↓reduceIte]
    split <;> rfl
  refine ⟨main, ?_, ?_, ?_, ?_⟩
  · intro h
    rw [main, h]
    rfl
  · intro h
    rw [main, h]
    rfl
  · intro h
    rw [main]
    simp only [StringMap.index, h, Option.getD_none]
    rfl
  · rw [main]
    split
    · exact Or.inl rfl
    · exact Or.inr rfl

/-- Witness for `GetStatus_maps_status`: the online payload gives 1. -/
theorem GetStatus_maps_status_witness :
    (freshUser "t" (fixedProxy fun _ => (onlinePayload, none))).GetStatus.2 = (1, none) :=
  (GetStatus_maps_status (freshUser "t" (fixedProxy fun _ => (onlinePayload, none)))
    onlinePayload [("status", onlineStatus)] rfl (by decide)).1

/-- The server-error check of `GetShips` never fires: when the proxy returns no
transport error, the stored message has just been emptied and decoding into the
local `shipList` does not touch it, so no `ERROR FROM SERVER` error comes back. -/
theorem GetShips_reports_no_server_error (u : User)
    (h : (u.webProxy.respond u.webProxy.calls .GetShipList).2 = none) (text : String) :
    u.GetShips.2.2 ≠ some (.errorf text) ∧ u.GetShips.1.Error = ⟨"", -1⟩ := by
  have hlen : ¬ (0 < len "") := by decide
  rcases hd : decode (unmarshalStruct "component.ShipList" ShipList.setField)
      (u.webProxy.respond u.webProxy.calls .GetShipList).1 ⟨[]⟩ with ⟨sl, _ | e⟩
  · simp [User.GetShips, Proxy.call, h, hlen, hd]
  · obtain ⟨msgs, rfl⟩ := decode_error_yaml _ _ _ e (by rw [hd])
    simp [User.GetShips, Proxy.call, h, hd]

/-- C1 (as the code behaves): the payload `tokenErrorPayload` carries an error
object with a non-empty message and code 40101, and comes without a transport
error.  `GetDetails` fails with the server error made of that code and message;
`GetShips` and `GetLeaderboard` return an empty result and no error, and
`GetStatus` fails with a decode error, not with the server error. -/
theorem server_error_reported_by_GetDetails_only :
    tokenErrorPayload.errorMessage = "Token was invalid or missing from the request." ∧
    tokenErrorPayload.errorCode? = some 40101 ∧
    tokenErrorUser.GetDetails.2
      = .returned (some (.errorf
          "ERROR FROM SERVER (40101): Token was invalid or missing from the request.")) ∧
    tokenErrorUser.GetShips.2 = (some ⟨[]⟩, none) ∧
    tokenErrorUser.GetLeaderboard.2 = (some ⟨[], ⟨"", 0, 0⟩⟩, none) ∧
    tokenErrorUser.GetStatus.2 = (-1, some (.yaml ["cannot unmarshal !!map into string"])) := by
  refine ⟨by decide, by decide, by decide, by decide, by decide, by decide⟩

/-- `GetDetails` after a proxy call without transport error, by what
`Decode(&u)` gives. -/
theorem GetDetails_of_response (u : User) (data : Payload)
    (hresp : u.webProxy.respond u.webProxy.calls .GetUserDetails = (data, none)) :
    u.GetDetails
      = match decodeUser data (u.afterCall .GetUserDetails) with
        | .nilled =>
          (u.afterCall .GetUserDetails,
            .panicked "invalid memory address or nil pointer dereference")
        | .into u' (some err) => (u', .returned (some err))
        | .into u' none =>
          if 0 < len u'.Error.Message then
            (u', .returned (some (.errorf (serverErrorText u'.Error.Code u'.Error.Message))))
          else (u', .returned none) := by
  simp only [User.GetDetails, Proxy.call, hresp, User.afterCall]

/-- When `Decode(&u)` leaves a struct behind, it is the one the decoder filled. -/
theorem decodeUser_into (data : Payload) (u u' : User) (err : Option GoError)
    (h : decodeUser data u = .into u' err) :
    u' = (decode (unmarshalStruct "component.User" User.setField) data u).1 ∧
    err = (decode (unmarshalStruct "component.User" User.setField) data u).2 := by
  unfold decodeUser at h
  split at h
  · cases h
  · simp only [DecodedUser.into.injEq] at h
    exact ⟨h.1.symm, h.2.symm⟩

/-- The server-error check of `GetDetails` does fire: on a payload that comes
without a transport error, is decoded without error into the struct and carries a
non-empty error message, `GetDetails` fails with the server error made of the
payload's code (-1 when it carries none) and message. -/
theorem GetDetails_reports_server_error (u u' : User) (data : Payload)
    (hresp : u.webProxy.respond u.webProxy.calls .GetUserDetails = (data, none))
    (hdec : decodeUser data (u.afterCall .GetUserDetails) = .into u' none)
    (hmsg : data.errorMessage ≠ "") :
    u.GetDetails.2
      = .returned (some (.errorf
          ("ERROR FROM SERVER (" ++ toString (data.errorCode?.getD (-1)) ++ "): "
            ++ data.errorMessage))) := by
  obtain ⟨hu', _⟩ := decodeUser_into _ _ _ _ hdec
  have hE := decode_User_Error data (u.afterCall .GetUserDetails) rfl
  rw [← hu'] at hE
  rw [GetDetails_of_response u data hresp, hdec]
  simp only [hE, (len_pos_iff data.errorMessage).2 hmsg, ↓reduceIte, serverErrorText]

/-- C5, counterexample: `accountWithCodePayload` comes without a transport error,
decodes without error and carries an empty error message, `GetDetails` returns no
error on it, and the error state stored afterwards has code 42: it is not the
sentinel. -/
theorem GetDetails_stores_payload_code :
    accountWithCodePayload.errorMessage = "" ∧
    accountWithCodeUser.webProxy.respond accountWithCodeUser.webProxy.calls .GetUserDetails
      = (accountWithCodePayload, none) ∧
    accountWithCodeUser.GetDetails.2 = .returned none ∧
    accountWithCodeUser.GetDetails.1.Details
      = ⟨1000, "2021-03-08T20:41:22.533Z", 2, 0, "otavio"⟩ ∧
    accountWithCodeUser.GetDetails.1.Error = ⟨"", 42⟩ ∧
    accountWithCodeUser.GetDetails.1.Error ≠ ⟨"", -1⟩ := by
  refine ⟨by decide, rfl, by decide, by decide, by decide, by decide⟩

/-- On a payload that is no null document, `Decode(&u)` leaves the struct that the
decoder filled. -/
theorem decodeUser_of_not_null (data : Payload) (u : User) (h : data.isNull = false) :
    decodeUser data u
      = .into (decode (unmarshalStruct "component.User" User.setField) data u).1
          (decode (unmarshalStruct "component.User" User.setField) data u).2 := by
  unfold decodeUser
  split
  · simp [Payload.isNull] at h
  · rfl

/-- On a null document, `Decode(&u)` sets the receiver to nil (and returns nil). -/
theorem decodeUser_of_null (data : Payload) (u : User) (h : data.isNull = true) :
    decodeUser data u = .nilled ∧
    (decode (unmarshalStruct "component.User" User.setField) data u).2 = none := by
  cases data with
  | malformed err => simp [Payload.isNull] at h
  | doc root =>
    cases root with
    | scalar raw res =>
      cases res <;> first | exact ⟨rfl, rfl⟩ | simp [Payload.isNull] at h
    | seq items => simp [Payload.isNull] at h
    | map entries => simp [Payload.isNull] at h

/-- On a null document that comes without a transport error, `GetDetails` panics:
`Decode(&u)` returns nil with the receiver set to nil, and `u.Error.Message` is
read next. -/
theorem GetDetails_panics_on_null (u : User) (data : Payload)
    (hresp : u.webProxy.respond u.webProxy.calls .GetUserDetails = (data, none))
    (hnull : data.isNull = true) :
    u.GetDetails.2 = .panicked "invalid memory address or nil pointer dereference" := by
  rw [GetDetails_of_response u data hresp, (decodeUser_of_null data _ hnull).1]

/-- C5, amended: on a payload that comes without a transport error, that `Decode`
accepts without error and that carries an empty error message, the operation
returns the decoded value and no error, whatever error was stored before; for
`GetDetails` the payload is moreover no null document.  After `GetShips`,
`GetLeaderboard` and `GetStatus` the stored error is the sentinel (-1, `""`).
After `GetDetails` the stored message is empty and the stored code is the code of
the payload's error object, -1 when it carries none; the stored details hold, field
by field, the scalars of the payload's `user` object, and the earlier value of a
field that the payload lacks. -/
theorem empty_message_returns_value (u : User) (ep : Endpoint) (data : Payload)
    (hresp : u.webProxy.respond u.webProxy.calls ep = (data, none))
    (hmsg : data.errorMessage = "") :
    match ep with
    | .GetUserDetails =>
      (decode (unmarshalStruct "component.User" User.setField) data
          (u.afterCall .GetUserDetails)).2 = none →
      data.isNull = false →
        u.GetDetails.2 = .returned none ∧
        u.GetDetails.1.Details = data.accountDetails u.Details ∧
        u.GetDetails.1.Error = ⟨"", data.errorCode?.getD (-1)⟩
    | .GetShipList =>
      ∀ shipList,
        decode (unmarshalStruct "component.ShipList" ShipList.setField) data ⟨[]⟩
          = (shipList, none) →
        u.GetShips.2 = (some shipList, none) ∧ u.GetShips.1.Error = ⟨"", -1⟩
    | .GetLeaderboard =>
      ∀ leaderboard,
        decode (unmarshalStruct "component.Leaderboard" Leaderboard.setField) data
          ⟨[], ⟨"", 0, 0⟩⟩ = (leaderboard, none) →
        u.GetLeaderboard.2 = (some leaderboard, none) ∧ u.GetLeaderboard.1.Error = ⟨"", -1⟩
    | .GetGameStatus =>
      ∀ status,
        decode (fun n (_ : StringMap) => unmarshalStringMap n) data [] = (status, none) →
        u.GetStatus.2 = (if status.index "status" = onlineStatus then 1 else -1, none) ∧
          u.GetStatus.1.Error = ⟨"", -1⟩ := by
  have hlen : ¬ (0 < len "") := by decide
  cases ep
  · intro hdec hnull
    have hE := decode_User_Error data (u.afterCall .GetUserDetails) rfl
    have hD := decode_User_Details data (u.afterCall .GetUserDetails)
    rw [hmsg] at hE
    have hempty : ¬ (0 < len (decode (unmarshalStruct "component.User" User.setField) data
        (u.afterCall .GetUserDetails)).1.Error.Message) := by
      rw [hE]
      exact hlen
    have hG := GetDetails_of_response u data hresp
    rw [decodeUser_of_not_null data _ hnull, hdec] at hG
    simp only [hempty, ↓reduceIte] at hG
    rw [hG]
    exact ⟨rfl, hD, hE⟩
  · intro shipList hdec
    simp [User.GetShips, Proxy.call, hresp, hdec, hlen]
  · intro leaderboard hdec
    simp [User.GetLeaderboard, Proxy.call, hresp, hdec, hlen]
  · intro status hdec
    simp only [User.GetStatus, Proxy.call, hresp, hdec, hlen, ↓reduceIte]
    split <;> exact ⟨rfl, rfl⟩

/-- Witness for `empty_message_returns_value`: on `accountWithCodePayload`,
`GetDetails` returns nil, stores the account of the payload and keeps code 42 with
the empty message, whatever was stored before. -/
theorem empty_message_returns_value_witness :
    accountWithCodeUser.GetDetails.2 = .returned none ∧
    accountWithCodeUser.GetDetails.1.Details
      = accountWithCodePayload.accountDetails accountWithCodeUser.Details ∧
    accountWithCodeUser.GetDetails.1.Error = ⟨"", accountWithCodePayload.errorCode?.getD (-1)⟩ :=
  empty_message_returns_value accountWithCodeUser .GetUserDetails accountWithCodePayload
    rfl (by decide) (by decide) (by decide)

/-- A scalar that does not fit its field is a type error that quotes the scalar: an
account whose `credits` is the string `abc` makes `GetDetails` return the decode
error. -/
theorem GetDetails_type_error :
    (freshUser "t" (fixedProxy fun _ =>
      (.doc (.map [("user", .map [("credits", .str "abc")])]), none))).GetDetails.2
      = .returned (some (.yaml ["cannot unmarshal !!str `abc` into int64"])) := by
  decide

/-- A float code is stored converted: on an error object with code 42.7 and an
empty message, `GetDetails` returns nil and stores code 42. -/
theorem GetDetails_float_code :
    (freshUser "t" (fixedProxy fun _ =>
      (.doc (.map [("error", .map [("code", .scalar "42.7" (.float (some 42))),
                                   ("message", .str "")])]), none))).GetDetails.2
      = .returned none ∧
    (freshUser "t" (fixedProxy fun _ =>
      (.doc (.map [("error", .map [("code", .scalar "42.7" (.float (some 42))),
                                   ("message", .str "")])]), none))).GetDetails.1.Error
      = ⟨"", 42⟩ := by
  refine ⟨by decide, by decide⟩

/-- The ship list of `twoShipsPayload` decodes to `twoShips`, and `GetShips` returns
it and leaves the sentinel, whatever was stored before. -/
theorem GetShips_twoShips :
    ({ freshUser "t" (fixedProxy fun _ => (twoShipsPayload, none)) with
        Error := ⟨"an earlier error", 500⟩ } : User).GetShips.2 = (some twoShips, none) ∧
    ({ freshUser "t" (fixedProxy fun _ => (twoShipsPayload, none)) with
        Error := ⟨"an earlier error", 500⟩ } : User).GetShips.1.Error = ⟨"", -1⟩ := by
  refine ⟨by decide, by decide⟩

/-- Whatever `GetDetails` does, it calls the proxy once, on `GetUserDetails`, and
keeps the token. -/
theorem GetDetails_calls_once (u : User) :
    u.GetDetails.1.webProxy = (u.webProxy.call .GetUserDetails).2 ∧
    u.GetDetails.1.token = u.token := by
  rcases hresp : u.webProxy.respond u.webProxy.calls .GetUserDetails with ⟨data, _ | e⟩
  · rw [GetDetails_of_response u data hresp]
    rcases hdec : decodeUser data (u.afterCall .GetUserDetails) with ⟨u', err⟩ | _
    · obtain ⟨hu', _⟩ := decodeUser_into _ _ _ _ hdec
      obtain ⟨ht, hp⟩ := decode_User_unexported data (u.afterCall .GetUserDetails)
      rw [← hu'] at ht hp
      cases err with
      | some e => exact ⟨hp, ht⟩
      | none =>
        simp only
        split <;> exact ⟨hp, ht⟩
    · exact ⟨rfl, rfl⟩
  · simp [User.GetDetails, Proxy.call, hresp]

/-- How `NewUserCustomProxy` follows its `GetDetails` call.  It makes exactly one
call through the given proxy, the `GetUserDetails` call of that `GetDetails`.  It
returns `(nil, err)` exactly when the call returns the error `err`, and when the
call returns nil it returns a user and a nil error, the user holding the given
token, the given proxy (one call later) and, as `Details`, the scalars of the
`user` object of that first response.  When the call panics, so does the
constructor. -/
theorem NewUserCustomProxy_of_GetDetails (proxy : Proxy) (token : String) :
    (NewUserCustomProxy proxy token).1 = (proxy.call .GetUserDetails).2 ∧
    (NewUserCustomProxy proxy token).1.calls = proxy.calls ++ [.GetUserDetails] ∧
    (∀ err, (NewUserCustomProxy proxy token).2 = .returned (none, some err) ↔
      (freshUser token proxy).GetDetails.2 = .returned (some err)) ∧
    (∀ user err, (NewUserCustomProxy proxy token).2 = .returned (user, some err) →
      user = none) ∧
    ((freshUser token proxy).GetDetails.2 = .returned none →
      ∃ user, (NewUserCustomProxy proxy token).2 = .returned (some user, none) ∧
        user = (freshUser token proxy).GetDetails.1 ∧
        user.token = token ∧
        user.webProxy = (proxy.call .GetUserDetails).2 ∧
        user.Details
          = (proxy.respond proxy.calls .GetUserDetails).1.accountDetails ⟨0, "", 0, 0, ""⟩) ∧
    (∀ msg, (NewUserCustomProxy proxy token).2 = .panicked msg ↔
      (freshUser token proxy).GetDetails.2 = .panicked msg) := by
  obtain ⟨hp, ht⟩ := GetDetails_calls_once (freshUser token proxy)
  have hdetails : (freshUser token proxy).GetDetails.2 = .returned none →
      (freshUser token proxy).GetDetails.1.Details
        = (proxy.respond proxy.calls .GetUserDetails).1.accountDetails ⟨0, "", 0, 0, ""⟩ := by
    intro hret
    rcases hresp : proxy.respond proxy.calls .GetUserDetails with ⟨data, _ | e⟩
    · have hG := GetDetails_of_response (freshUser token proxy) data hresp
      rcases hdec : decodeUser data ((freshUser token proxy).afterCall .GetUserDetails)
        with ⟨u', err⟩ | _
      · obtain ⟨hu', _⟩ := decodeUser_into _ _ _ _ hdec
        have hD := decode_User_Details data ((freshUser token proxy).afterCall .GetUserDetails)
        rw [← hu'] at hD
        rw [hdec] at hG
        cases err with
        | some e => rw [hG] at hret; simp at hret
        | none =>
          simp only at hG
          split at hG
          · rw [hG] at hret; simp at hret
          · rw [hG]
            exact hD
      · rw [hdec] at hG
        rw [hG] at hret
        simp at hret
    · have : (freshUser token proxy).GetDetails.2 = .returned (some e) := by
        simp [User.GetDetails, Proxy.call, freshUser, hresp]
      rw [this] at hret
      simp at hret
  have hfst : (NewUserCustomProxy proxy token).1 = (freshUser token proxy).GetDetails.1.webProxy := by
    unfold NewUserCustomProxy
    split <;> simp_all
  rcases hg : (freshUser token proxy).GetDetails with ⟨user, (_ | err) | msg⟩
  · -- the call returns nil
    rw [hg] at hp ht hdetails hfst
    have hN : (NewUserCustomProxy proxy token).2 = .returned (some user, none) := by
      unfold NewUserCustomProxy
      rw [hg]
    refine ⟨by rw [hfst]; exact hp, by rw [hfst, hp]; rfl, ?_, ?_, ?_, ?_⟩
    · intro err; rw [hN]; simp
    · intro user' err h; rw [hN] at h; simp at h
    · intro _
      exact ⟨user, hN, rfl, ht, hp, hdetails rfl⟩
    · intro msg; rw [hN]; simp
  · -- the call returns an error
    rw [hg] at hp hfst
    have hN : (NewUserCustomProxy proxy token).2 = .returned (none, some err) := by
      unfold NewUserCustomProxy
      rw [hg]
    refine ⟨by rw [hfst]; exact hp, by rw [hfst, hp]; rfl, ?_, ?_, ?_, ?_⟩
    · intro err'; rw [hN]; simp
    · intro user' err' h
      rw [hN] at h
      simp only [Outcome.returned.injEq, Prod.mk.injEq] at h
      exact h.1.symm
    · intro h; simp at h
    · intro msg; rw [hN]; simp
  · -- the call panics
    rw [hg] at hp hfst
    have hN : (NewUserCustomProxy proxy token).2 = .panicked msg := by
      unfold NewUserCustomProxy
      rw [hg]
    refine ⟨by rw [hfst]; exact hp, by rw [hfst, hp]; rfl, ?_, ?_, ?_, ?_⟩
    · intro err; rw [hN]; simp
    · intro user' err h; rw [hN] at h; simp at h
    · intro h; simp at h
    · intro msg'; rw [hN]; simp

/-- The login on `gameProxy`: one call, and the user comes back with the account
details of the first response. -/
theorem NewUserCustomProxy_gameProxy :
    (NewUserCustomProxy gameProxy "t").1.calls = [.GetUserDetails] ∧
    ∃ user, (NewUserCustomProxy gameProxy "t").2 = .returned (some user, none) ∧
      user.token = "t" ∧
      user.Details = ⟨1000, "2021-03-08T20:41:22.533Z", 2, 0, "otavio"⟩ ∧
      user.Error = ⟨"", -1⟩ :=
  ⟨rfl, gameUser, rfl, rfl, rfl, rfl⟩

/-- C10 (as the code behaves): on a proxy whose `GetUserDetails` returns the body
`null` and a nil error, the one `GetDetails` call of `NewUserCustomProxy` neither
fails nor succeeds: `Decode(&u)` returns nil and sets the receiver `u` to nil, the
read of `u.Error.Message` that follows panics, and the constructor panics with it;
it returns neither `(nil, err)` nor a user.  The proxy has been called once.
`GetShips`, which decodes into a struct of its own, returns on the same body. -/
theorem NewUserCustomProxy_panics_on_null_document :
    nullProxy.respond nullProxy.calls .GetUserDetails = (.doc .null, none) ∧
    (decode (unmarshalStruct "component.User" User.setField) (.doc .null)
        ((freshUser "t" nullProxy).afterCall .GetUserDetails)).2 = none ∧
    decodeUser (.doc .null) ((freshUser "t" nullProxy).afterCall .GetUserDetails) = .nilled ∧
    (freshUser "t" nullProxy).GetDetails.2
      = .panicked "invalid memory address or nil pointer dereference" ∧
    (NewUserCustomProxy nullProxy "t").2
      = .panicked "invalid memory address or nil pointer dereference" ∧
    (∀ r, (NewUserCustomProxy nullProxy "t").2 ≠ .returned r) ∧
    (NewUserCustomProxy nullProxy "t").1.calls = [.GetUserDetails] ∧
    (freshUser "t" nullProxy).GetShips.2 = (some ⟨[]⟩, none) := by
  refine ⟨rfl, rfl, rfl, rfl, rfl, ?_, rfl, by decide⟩
  intro r h
  have hp : (NewUserCustomProxy nullProxy "t").2
      = .panicked "invalid memory address or nil pointer dereference" := rfl
  rw [hp] at h
  cases h

/-! ## Theorems on the collector loop -/

/-- The loop, followed for any number of passes: its trace-level properties.  The
fetch calls are an initial part of the repeated order of a pass; while the process
has not ended every pass made its four calls; what follows the first failed fetch
is the `log.Fatal` of its error and nothing else; and once the process has ended,
following the loop for more passes adds nothing. -/
theorem runLoop_trace (clock : Nat → Int) (fuel : Nat) :
    ∀ (i : Nat) (user : User),
      (∃ k, fetches (runLoop clock fuel i user)
          = ((List.replicate fuel cycleOrder).flatten).take k) ∧
      (ended (runLoop clock fuel i user) = false →
        fetches (runLoop clock fuel i user) = (List.replicate fuel cycleOrder).flatten) ∧
      (∀ err rest, afterFirstError (runLoop clock fuel i user) = some (err, rest) →
        rest = [.fatal err]) ∧
      (ended (runLoop clock fuel i user) = true →
        ∀ more, runLoop clock (fuel + more) i user = runLoop clock fuel i user) := by
  induction fuel with
  | zero =>
    intro i user
    refine ⟨⟨0, rfl⟩, fun _ => rfl, ?_, ?_⟩
    · intro err rest h
      simp [runLoop, afterFirstError] at h
    · intro h
      simp [runLoop, ended] at h
  | succ fuel ih =>
    intro i user
    have hflat : (List.replicate (fuel + 1) cycleOrder).flatten
        = cycleOrder ++ (List.replicate fuel cycleOrder).flatten := by
      simp [List.replicate_succ]
    rcases hc : cycle user (clock i) with ⟨events, _ | user'⟩
    · -- the process ended in this pass
      have hrun : ∀ n, runLoop clock (n + 1) i user = events := by
        intro n
        simp only [runLoop, hc]
      rcases cycle_cases user (clock i) with ⟨_, ⟨k, hk, hf⟩, hhalt, hend⟩ | ⟨⟨u, hu⟩, _⟩
      · rw [hc] at hf hhalt hend
        rw [hrun fuel, hflat]
        refine ⟨⟨k, ?_⟩, ?_, hhalt, ?_⟩
        · rw [hf, List.take_append_of_le_length (by simpa [cycleOrder] using hk)]
        · intro h
          rw [hend] at h
          cases h
        · intro _ more
          have hidx : fuel + 1 + more = (fuel + more) + 1 := by omega
          rw [hidx, hrun (fuel + more)]
      · rw [hc] at hu
        cases hu
    · -- the pass ran to its end
      have hrun : ∀ n, runLoop clock (n + 1) i user
          = events ++ runLoop clock n (i + 1) user' := by
        intro n
        simp only [runLoop, hc]
      rcases cycle_cases user (clock i) with ⟨hn, _⟩ | ⟨_, hf, hnone, _, hend⟩
      · rw [hc] at hn
        cases hn
      · rw [hc] at hf hnone hend
        obtain ⟨⟨k, hk⟩, hall, hhalt, hstop⟩ := ih (i + 1) user'
        rw [hrun fuel, hflat]
        refine ⟨⟨cycleOrder.length + k, ?_⟩, ?_, ?_, ?_⟩
        · rw [fetches_append, hf, hk, List.take_append]
        · intro h
          rw [ended_append, hend, Bool.false_or] at h
          rw [fetches_append, hf, hall h]
        · intro err rest h
          rw [afterFirstError_append_none _ _ hnone] at h
          exact hhalt err rest h
        · intro h more
          rw [ended_append, hend, Bool.false_or] at h
          have hidx : fuel + 1 + more = (fuel + more) + 1 := by omega
          rw [hidx, hrun (fuel + more), hstop h more]

/-- C7: in the collector loop the fetch calls happen in the repeating order
`GetStatus`, `GetDetails`, `GetLeaderboard`, `GetShips`, one of each per pass, and
the first fetch call that returns an error halts the loop.  A pass, by what its
fetch calls return: when one of them returns an error, the calls before it were
made in order, the error goes to `log.Fatal` right after the call and the loop is
over, however long it is followed: no further fetch, gauge or pass; when the four
return nil, the pass makes exactly the four calls in order, does not end the
process, and the next pass starts from the user they leave.  Over any number
`fuel` of passes: the fetch calls are an initial part of the order repeated, they
are the whole of it (four calls in each of the `fuel` passes) unless the process
has ended, and what follows the first failed fetch is its `log.Fatal` alone. -/
theorem runLoop_order_and_halt (clock : Nat → Int) (fuel i : Nat) (user : User) :
    (∀ u1 status err, user.GetStatus = (u1, status, some err) →
      runLoop clock (fuel + 1) i user = [.fetched .GetStatus (some err), .fatal err]) ∧
    (∀ u1 status u2 err, user.GetStatus = (u1, status, none) →
      u1.GetDetails = (u2, .returned (some err)) →
      ∃ before, runLoop clock (fuel + 1) i user
          = before ++ [.fetched .GetDetails (some err), .fatal err] ∧
        fetches before = [.GetStatus] ∧ ended before = false ∧
        afterFirstError before = none) ∧
    (∀ u1 status u2 u3 board err, user.GetStatus = (u1, status, none) →
      u1.GetDetails = (u2, .returned none) →
      u2.GetLeaderboard = (u3, board, some err) →
      ∃ before, runLoop clock (fuel + 1) i user
          = before ++ [.fetched .GetLeaderboard (some err), .fatal err] ∧
        fetches before = [.GetStatus, .GetDetails] ∧ ended before = false ∧
        afterFirstError before = none) ∧
    (∀ u1 status u2 u3 board u4 ships err, user.GetStatus = (u1, status, none) →
      u1.GetDetails = (u2, .returned none) →
      u2.GetLeaderboard = (u3, some board, none) →
      u3.GetShips = (u4, ships, some err) →
      ∃ before, runLoop clock (fuel + 1) i user
          = before ++ [.fetched .GetShips (some err), .fatal err] ∧
        fetches before = [.GetStatus, .GetDetails, .GetLeaderboard] ∧
        ended before = false ∧ afterFirstError before = none) ∧
    (∀ u1 status u2 u3 board u4 ships, user.GetStatus = (u1, status, none) →
      u1.GetDetails = (u2, .returned none) →
      u2.GetLeaderboard = (u3, some board, none) →
      u3.GetShips = (u4, some ships, none) →
      ∃ pass, runLoop clock (fuel + 1) i user = pass ++ runLoop clock fuel (i + 1) u4 ∧
        fetches pass = [.GetStatus, .GetDetails, .GetLeaderboard, .GetShips] ∧
        ended pass = false ∧ afterFirstError pass = none) ∧
    (∃ k, fetches (runLoop clock fuel i user)
        = ((List.replicate fuel cycleOrder).flatten).take k) ∧
    (ended (runLoop clock fuel i user) = false →
      fetches (runLoop clock fuel i user) = (List.replicate fuel cycleOrder).flatten) ∧
    (∀ err rest, afterFirstError (runLoop clock fuel i user) = some (err, rest) →
      rest = [.fatal err]) ∧
    (ended (runLoop clock fuel i user) = true →
      ∀ more, runLoop clock (fuel + more) i user = runLoop clock fuel i user) := by
  obtain ⟨horder, hall, hhalt, hstop⟩ := runLoop_trace clock fuel i user
  refine ⟨?_, ?_, ?_, ?_, ?_, horder, hall, hhalt, hstop⟩
  · intro u1 status err hs
    simp only [runLoop, cycle, hs]
  · intro u1 status u2 err hs hd
    refine ⟨[.fetched .GetStatus none,
      .published (GameStatus.set [u1.Details.Username] (.ofInt status))], ?_, rfl, rfl, rfl⟩
    simp only [runLoop, cycle, hs, hd]
  · intro u1 status u2 u3 board err hs hd hb
    refine ⟨[.fetched .GetStatus none,
      .published (GameStatus.set [u1.Details.Username] (.ofInt status)),
      .fetched .GetDetails none,
      .published (Credits.set [u2.Details.Username] (.ofInt u2.Details.Credits)),
      .published (ShipCount.set [u2.Details.Username] (.ofInt u2.Details.ShipCount)),
      .published
        (StructureCount.set [u2.Details.Username] (.ofInt u2.Details.StructureCount))],
      ?_, rfl, rfl, rfl⟩
    simp only [runLoop, cycle, hs, hd, hb]
    rfl
  · intro u1 status u2 u3 board u4 ships err hs hd hb hsh
    refine ⟨[.fetched .GetStatus none,
      .published (GameStatus.set [u1.Details.Username] (.ofInt status)),
      .fetched .GetDetails none,
      .published (Credits.set [u2.Details.Username] (.ofInt u2.Details.Credits)),
      .published (ShipCount.set [u2.Details.Username] (.ofInt u2.Details.ShipCount)),
      .published
        (StructureCount.set [u2.Details.Username] (.ofInt u2.Details.StructureCount)),
      .fetched .GetLeaderboard none,
      .published
        (UserRank.gauge.set [u3.Details.Username] (.ofInt board.UserNetWorth.Rank))],
      ?_, rfl, rfl, rfl⟩
    simp only [runLoop, cycle, hs, hd, hb, hsh]
    rfl
  · intro u1 status u2 u3 board u4 ships hs hd hb hsh
    have hc : cycle user (clock i) = ⟨(cycle user (clock i)).events, some u4⟩ := by
      simp only [cycle, hs, hd, hb, hsh]
    rcases cycle_cases user (clock i) with ⟨hn, _⟩ | ⟨_, hf, hnone, _, hend⟩
    · rw [hc] at hn
      cases hn
    · refine ⟨(cycle user (clock i)).events, ?_, hf, hend, hnone⟩
      conv_lhs => rw [runLoop, hc]

/-- Witness for `runLoop_order_and_halt`: on `gameProxy` the four fetches of the
first pass return nil, so the pass makes its four calls and the second pass starts
from the user it leaves. -/
theorem runLoop_order_and_halt_witness :
    ∃ pass, runLoop (fun _ => 1500000000) 3 0 gameUser
        = pass ++ runLoop (fun _ => 1500000000) 2 1 gameUserAfterPass ∧
      fetches pass = [.GetStatus, .GetDetails, .GetLeaderboard, .GetShips] ∧
      ended pass = false ∧ afterFirstError pass = none :=
  (runLoop_order_and_halt (fun _ => 1500000000) 2 0 gameUser).2.2.2.2.1
    { gameUser with webProxy := ⟨gameProxy.respond, [.GetUserDetails, .GetGameStatus]⟩ } 1
    { gameUser with webProxy :=
        ⟨gameProxy.respond, [.GetUserDetails, .GetGameStatus, .GetUserDetails]⟩ }
    { gameUser with webProxy :=
        ⟨gameProxy.respond, [.GetUserDetails, .GetGameStatus, .GetUserDetails, .GetLeaderboard]⟩ }
    ⟨[⟨"first", 900000, 1⟩, ⟨"second", 800000, 2⟩], ⟨"otavio", 251000, 5⟩⟩
    gameUserAfterPass twoShips rfl rfl rfl rfl

/-- Three passes on `gameProxy`, where every fetch succeeds: twelve fetch calls, four
in each pass in the order of a pass, and the process has not ended. -/
theorem runLoop_gameProxy :
    fetches (runLoop (fun _ => 1500000000) 3 0 gameUser)
      = [.GetStatus, .GetDetails, .GetLeaderboard, .GetShips,
          .GetStatus, .GetDetails, .GetLeaderboard, .GetShips,
          .GetStatus, .GetDetails, .GetLeaderboard, .GetShips] ∧
    ended (runLoop (fun _ => 1500000000) 3 0 gameUser) = false ∧
    (runLoop (fun _ => 1500000000) 3 0 gameUser).length = 36 := by
  refine ⟨by decide, by decide, by decide⟩

/-- The run on `failingProxy`: the login and one pass succeed, the first fetch of
the second pass fails, and the trace ends with the `log.Fatal` of its error,
whatever number of passes is followed from there. -/
theorem run_failingProxy :
    fetches (run failingProxy "t" (fun _ => 1500000000) 5)
      = [.GetDetails, .GetStatus, .GetDetails, .GetLeaderboard, .GetShips, .GetStatus] ∧
    afterFirstError (run failingProxy "t" (fun _ => 1500000000) 5)
      = some (.other "connection refused", [.fatal (.other "connection refused")]) ∧
    (run failingProxy "t" (fun _ => 1500000000) 5).length = 15 := by
  refine ⟨by decide, by decide, by decide⟩

/-- C8: a pass that runs to its end, having taken `elapsed` nanoseconds (a value a
`time.Duration` can hold), ends with one `time.Sleep` that pauses for
`max(0, 300000 - ms)` milliseconds, `ms = elapsed / 10^6` being the whole
milliseconds elapsed.  When `ms` exceeds 300000 the duration computed is negative,
the sleep pauses for no time, and in every case the next pass follows at once. -/
theorem cycle_sleeps_rest_of_interval (user user' : User) (elapsed : Int)
    (h0 : 0 ≤ elapsed) (h1 : elapsed < 2 ^ 63)
    (hnext : (cycle user elapsed).next = some user') :
    (cycle user elapsed).events.getLast? = some (.sleep (sleepArg elapsed)) ∧
    timeSleep (sleepArg elapsed) = max 0 (300000 - elapsed / 1000000) * 1000000 ∧
    (300000 < elapsed / 1000000 →
      sleepArg elapsed < 0 ∧ timeSleep (sleepArg elapsed) = 0) ∧
    (∀ (clock : Nat → Int) (fuel i : Nat), clock i = elapsed →
      runLoop clock (fuel + 1) i user
        = (cycle user elapsed).events ++ runLoop clock fuel (i + 1) user') := by
  have harg := sleepArg_eq elapsed h0 h1
  refine ⟨?_, ?_, ?_, ?_⟩
  · rcases cycle_cases user elapsed with ⟨hn, _⟩ | ⟨_, _, _, hlast, _⟩
    · rw [hn] at hnext
      cases hnext
    · exact hlast
  · rw [harg]
    unfold timeSleep
    rcases le_total (300000 - elapsed / 1000000) 0 with h | h
    · rw [max_eq_left h]
      have : (300000 - elapsed / 1000000) * 1000000 ≤ 0 := by omega
      simp [this]
    · rw [max_eq_right h]
      by_cases hz : (300000 - elapsed / 1000000) * 1000000 ≤ 0
      · have : 300000 - elapsed / 1000000 = 0 := by omega
        simp [this]
      · simp [hz]
  · intro hlate
    rw [harg]
    have hneg : (300000 - elapsed / 1000000) * 1000000 < 0 := by omega
    refine ⟨hneg, ?_⟩
    unfold timeSleep
    simp [le_of_lt hneg]
  · intro clock fuel i hclock
    rcases hc : cycle user elapsed with ⟨events, next⟩
    rw [hc] at hnext
    simp only at hnext
    subst hnext
    simp only [runLoop, hclock, hc]

/-- Witness for `cycle_sleeps_rest_of_interval`: a pass on `gameProxy` that took
400 seconds computes a negative duration and does not pause. -/
theorem cycle_sleeps_rest_of_interval_witness :
    sleepArg 400000000000 < 0 ∧ timeSleep (sleepArg 400000000000) = 0 :=
  (cycle_sleeps_rest_of_interval gameUser gameUserAfterPass 400000000000
    (by decide) (by decide) rfl).2.2.1 (by decide)

/-- `GetStatus` leaves the stored details alone. -/
theorem GetStatus_Details (u : User) : u.GetStatus.1.Details = u.Details := by
  rcases hresp : u.webProxy.respond u.webProxy.calls .GetGameStatus with ⟨data, _ | e⟩
  · rcases hd : decode (fun n (_ : StringMap) => unmarshalStringMap n) data []
      with ⟨status, _ | e⟩
    · have hlen : ¬ (0 < len "") := by decide
      simp only [User.GetStatus, Proxy.call, hresp, hd, hlen, ↓reduceIte]
      split <;> rfl
    · simp [User.GetStatus, Proxy.call, hresp, hd]
  · simp [User.GetStatus, Proxy.call, hresp]

/-- `GetLeaderboard` leaves the stored details alone. -/
theorem GetLeaderboard_Details (u : User) : u.GetLeaderboard.1.Details = u.Details := by
  rcases hresp : u.webProxy.respond u.webProxy.calls .GetLeaderboard with ⟨data, _ | e⟩
  · rcases hd : decode (unmarshalStruct "component.Leaderboard" Leaderboard.setField) data
      ⟨[], ⟨"", 0, 0⟩⟩ with ⟨board, _ | e⟩
    · have hlen : ¬ (0 < len "") := by decide
      simp [User.GetLeaderboard, Proxy.call, hresp, hd, hlen]
    · simp [User.GetLeaderboard, Proxy.call, hresp, hd]
  · simp [User.GetLeaderboard, Proxy.call, hresp]

/-- `GetShips` leaves the stored details alone. -/
theorem GetShips_Details (u : User) : u.GetShips.1.Details = u.Details := by
  rcases hresp : u.webProxy.respond u.webProxy.calls .GetShipList with ⟨data, _ | e⟩
  · rcases hd : decode (unmarshalStruct "component.ShipList" ShipList.setField) data ⟨[]⟩
      with ⟨ships, _ | e⟩
    · have hlen : ¬ (0 < len "") := by decide
      simp [User.GetShips, Proxy.call, hresp, hd, hlen]
    · simp [User.GetShips, Proxy.call, hresp, hd]
  · simp [User.GetShips, Proxy.call, hresp]

/-- C9: in a pass in which the four fetches succeed, the gauges are set, in this
order, to (the `float64` conversions of) the fetched values: `game_status` to the
status, `credits`, `shipcount` and `structurecount` to the `Credits`, `ShipCount`
and `StructureCount` of the account details just decoded, `userrank` to the
leaderboard's `UserNetWorth.Rank`, and then, for each ship of the fetched list in
list order, one `shipload` observation set to the ship's `SpaceAvailable`, whose
nine label values stand under the nine declared label names in the declared
order.  The `username` label is the stored username: for `game_status` the one
stored before the pass, for the others the one just decoded. -/
theorem cycle_publishes_fetched_values (user u1 u2 u3 u4 : User) (elapsed : Int)
    (status : Int) (board : Leaderboard) (ships : ShipList)
    (hs : user.GetStatus = (u1, status, none))
    (hd : u1.GetDetails = (u2, .returned none))
    (hb : u2.GetLeaderboard = (u3, some board, none))
    (hsh : u3.GetShips = (u4, some ships, none)) :
    observations (cycle user elapsed).events
      = [⟨"game_status", [("username", user.Details.Username)], .ofInt status⟩,
          ⟨"credits", [("username", u2.Details.Username)], .ofInt u2.Details.Credits⟩,
          ⟨"shipcount", [("username", u2.Details.Username)], .ofInt u2.Details.ShipCount⟩,
          ⟨"structurecount", [("username", u2.Details.Username)],
            .ofInt u2.Details.StructureCount⟩,
          ⟨"userrank", [("username", u2.Details.Username)], .ofInt board.UserNetWorth.Rank⟩]
        ++ ships.Ships.map (fun ship =>
          ⟨"shipload",
            [("username", u2.Details.Username), ("id", ship.Id), ("class", ship.Class),
              ("manufacturer", ship.Manufacturer), ("type", ship.Type_),
              ("maxcargo", toString ship.MaxCargo), ("plating", toString ship.Plating),
              ("speed", toString ship.Speed), ("weapons", toString ship.Weapons)],
            .ofInt ship.SpaceAvailable⟩) ∧
    ShipLoad.labelNames
      = ["username", "id", "class", "manufacturer", "type", "maxcargo", "plating", "speed",
          "weapons"] ∧
    fetches (cycle user elapsed).events = cycleOrder := by
  have h1 : u1.Details = user.Details := by
    have := GetStatus_Details user
    rwa [hs] at this
  have h3 : u3.Details = u2.Details := by
    have := GetLeaderboard_Details u2
    rwa [hb] at this
  have h4 : u4.Details = u2.Details := by
    have := GetShips_Details u3
    rw [hsh] at this
    exact this.trans h3
  refine ⟨?_, rfl, ?_⟩
  · simp only [cycle, hs, hd, hb, hsh, h1, h3, h4]
    simp [observations, observations_append, observations_publishShip, GaugeVec.set,
      GameStatus, Credits, ShipCount, StructureCount, UserRank.gauge, ShipLoad, sprintfD]
  · simp only [cycle, hs, hd, hb, hsh]
    simp [fetches_append, fetches_publishShip, fetches, cycleOrder]

/-- Witness for `cycle_publishes_fetched_values`: on `gameProxy` the account has
1000 credits and 2 ships, the user has rank 5 and the two ships have 10 and 20
units of free space; the pass publishes exactly these values. -/
theorem cycle_publishes_fetched_values_witness :
    observations (cycle gameUser 1500000000).events
      = [⟨"game_status", [("username", "otavio")], .ofInt 1⟩,
          ⟨"credits", [("username", "otavio")], .ofInt 1000⟩,
          ⟨"shipcount", [("username", "otavio")], .ofInt 2⟩,
          ⟨"structurecount", [("username", "otavio")], .ofInt 0⟩,
          ⟨"userrank", [("username", "otavio")], .ofInt 5⟩,
          ⟨"shipload",
            [("username", "otavio"), ("id", "ckno8ylc60014e7nzwx5a9yqg"), ("class", "MK-I"),
              ("manufacturer", "Jackshaw"), ("type", "JW-MK-I"), ("maxcargo", "50"),
              ("plating", "5"), ("speed", "1"), ("weapons", "5")],
            .ofInt 10⟩,
          ⟨"shipload",
            [("username", "otavio"), ("id", "ckno9xh2q0163e7nz8qk1fc3f"), ("class", "MK-II"),
              ("manufacturer", "Gravager"), ("type", "GR-MK-II"), ("maxcargo", "300"),
              ("plating", "10"), ("speed", "2"), ("weapons", "10")],
            .ofInt 20⟩] :=
  (cycle_publishes_fetched_values gameUser
    { gameUser with webProxy := ⟨gameProxy.respond, [.GetUserDetails, .GetGameStatus]⟩ }
    { gameUser with webProxy :=
        ⟨gameProxy.respond, [.GetUserDetails, .GetGameStatus, .GetUserDetails]⟩ }
    { gameUser with webProxy :=
        ⟨gameProxy.respond, [.GetUserDetails, .GetGameStatus, .GetUserDetails, .GetLeaderboard]⟩ }
    gameUserAfterPass 1500000000 1
    ⟨[⟨"first", 900000, 1⟩, ⟨"second", 800000, 2⟩], ⟨"otavio", 251000, 5⟩⟩ twoShips
    rfl rfl rfl rfl).1

end SpaceTraders
